import Mathlib

/-!
# Paparazzi: the dash / stamina regulator of `APaparazziCharacter`

Shallow embedding of `Source/Paparazzi/PaparazziCharacter.cpp`.

Modelling decisions.

* A C++ `float` is an IEEE 754 binary32 value, `Float32` below: a finite value is an
  integer multiple `k * 2^-149` of the smallest subnormal with at most 24 significant
  bits and magnitude below `2^128`, and there are `+inf`, `-inf` and NaN.  `+`, `-`,
  `*` and `/` compute the exact result and round it to nearest, ties to even, with
  gradual underflow and overflow to infinity; comparisons are the IEEE ones (false on
  NaN).  The two zeros are not distinguished (the source never inspects the sign of a
  zero), and a zero divisor is taken as `+0` (the only division in the source is by
  the constant 5).  The header is not part of the sources; every numeric field is
  taken to be a `float`, evaluated in single precision.
* The object is a record of the fields the methods read or write.  A method is a
  function from the record (and its arguments) to the new record.
* Engine code is not part of the repository.  `Super::BeginPlay` and
  `Super::Tick` are taken not to touch the fields of the record.  The movement
  component is the pair of fields the class uses; `GetMovementComponent()` is taken
  to return it, so the cast in `BeginPlay` and `Tick` does not yield a null pointer.
  `APawn::AddMovementInput` is modelled by appending the call's arguments to a log.
  `FRotationMatrix(R).GetUnitAxis(A)` is a parameter `unitAxis R A`.
-/

set_option maxRecDepth 100000

namespace Paparazzi

/-! ## IEEE 754 binary32 -/

/-- Auxiliary for `shift`: the number of halvings that bring `n` below `2^24`, with
`fuel` bounding the recursion. -/
def shiftAux : ℕ → ℕ → ℕ
  | 0, _ => 0
  | fuel + 1, n => if n < 2 ^ 24 then 0 else shiftAux fuel (n / 2) + 1

/-- The binary exponent of the unit in the last place of a magnitude `n`, counted in
units of `2^-149`: 0 below `2^24` (subnormals and the first normal binade), and
otherwise the `s` with `2^(23+s) <= n < 2^(24+s)`. -/
def shift (n : ℕ) : ℕ := shiftAux n n

/-- Round the non-negative rational `p / d` to the nearest natural number, ties to
the even one. -/
def rne (p d : ℕ) : ℕ :=
  if 2 * (p % d) < d then p / d
  else if d < 2 * (p % d) then p / d + 1
  else if (p / d) % 2 = 0 then p / d
  else p / d + 1

/-- Round the non-negative rational `p / q` (in units of `2^-149`) to 24 significant
bits, to nearest with ties to even: the result is a multiple of `2^s` for the `s` of
the binade of `p / q`.  The exponent is not bounded here. -/
def roundMag (p q : ℕ) : ℕ :=
  rne p (q * 2 ^ shift (p / q)) * 2 ^ shift (p / q)

/-- The magnitude `k * 2^-149` is a finite binary32 value: at most 24 significant
bits, and below `2^128 = 2^277 * 2^-149`. -/
def IsRep (k : ℕ) : Prop := k % 2 ^ shift k = 0 ∧ k < 2 ^ 149 * 2 ^ 128

instance IsRep.decidable (k : ℕ) : Decidable (IsRep k) := by
  unfold IsRep; infer_instance

/-- A binary32 value: `finite k _` is the number `k * 2^-149`. -/
inductive Float32 where
  | finite (k : ℤ) (h : IsRep k.natAbs)
  | posInf
  | negInf
  | nan
  deriving DecidableEq

namespace Float32

/-- The binary32 value nearest to the rational `p / q` given in units of `2^-149`
(`0 < q`), ties to even; a rounded magnitude of `2^128` or more, which is not a
finite binary32 value, overflows to the infinity of the sign of `p`. -/
def round (p : ℤ) (q : ℕ) : Float32 :=
  if h : IsRep (roundMag p.natAbs q) then
    if p < 0 then
      finite (-(roundMag p.natAbs q : ℤ)) (by rw [Int.natAbs_neg, Int.natAbs_ofNat]; exact h)
    else finite (roundMag p.natAbs q : ℤ) (by rw [Int.natAbs_ofNat]; exact h)
  else if p < 0 then negInf else posInf

/-- The binary32 value of the literal `num / den`, correctly rounded: `lit 1 10` is
`0.1f`, `lit 3 2` is `1.5`. -/
def lit (num : ℤ) (den : ℕ) : Float32 := round (num * 2 ^ 149) den

instance instOfNat (n : ℕ) : OfNat Float32 n := ⟨lit n 1⟩

/-- Negation. -/
def neg : Float32 → Float32
  | finite k h => finite (-k) (by rw [Int.natAbs_neg]; exact h)
  | posInf => negInf
  | negInf => posInf
  | nan => nan

/-- Binary32 addition. -/
def add : Float32 → Float32 → Float32
  | finite k _, finite j _ => round (k + j) 1
  | nan, _ => nan
  | _, nan => nan
  | posInf, negInf => nan
  | negInf, posInf => nan
  | posInf, _ => posInf
  | _, posInf => posInf
  | negInf, _ => negInf
  | _, negInf => negInf

/-- Binary32 subtraction. -/
def sub (a b : Float32) : Float32 := add a (neg b)

/-- Binary32 multiplication: `(k * 2^-149) * (j * 2^-149) = (k * j / 2^149) * 2^-149`. -/
def mul : Float32 → Float32 → Float32
  | finite k _, finite j _ => round (k * j) (2 ^ 149)
  | nan, _ => nan
  | _, nan => nan
  | finite k _, posInf => if k = 0 then nan else if k < 0 then negInf else posInf
  | finite k _, negInf => if k = 0 then nan else if k < 0 then posInf else negInf
  | posInf, finite k _ => if k = 0 then nan else if k < 0 then negInf else posInf
  | negInf, finite k _ => if k = 0 then nan else if k < 0 then posInf else negInf
  | posInf, posInf => posInf
  | posInf, negInf => negInf
  | negInf, posInf => negInf
  | negInf, negInf => posInf

/-- Binary32 division: `(k * 2^-149) / (j * 2^-149) = (k * 2^149 / j) * 2^-149`.  A
zero divisor counts as `+0`. -/
def div : Float32 → Float32 → Float32
  | finite k _, finite j _ =>
    if j = 0 then (if k = 0 then nan else if k < 0 then negInf else posInf)
    else if j < 0 then round (-(k * 2 ^ 149)) j.natAbs
    else round (k * 2 ^ 149) j.natAbs
  | nan, _ => nan
  | _, nan => nan
  | finite _ _, posInf => 0
  | finite _ _, negInf => 0
  | posInf, finite j _ => if j < 0 then negInf else posInf
  | negInf, finite j _ => if j < 0 then posInf else negInf
  | posInf, posInf => nan
  | posInf, negInf => nan
  | negInf, posInf => nan
  | negInf, negInf => nan

instance instAdd : Add Float32 := ⟨add⟩

instance instSub : Sub Float32 := ⟨sub⟩

instance instMul : Mul Float32 := ⟨mul⟩

instance instDiv : Div Float32 := ⟨div⟩

/-- The comparison `a < b`; false when either side is NaN. -/
def lt : Float32 → Float32 → Prop
  | finite k _, finite j _ => k < j
  | finite _ _, posInf => True
  | negInf, finite _ _ => True
  | negInf, posInf => True
  | _, _ => False

/-- The comparison `a <= b`; false when either side is NaN. -/
def le : Float32 → Float32 → Prop
  | finite k _, finite j _ => k ≤ j
  | finite _ _, posInf => True
  | negInf, finite _ _ => True
  | negInf, posInf => True
  | posInf, posInf => True
  | negInf, negInf => True
  | _, _ => False

instance instLT : LT Float32 := ⟨lt⟩

instance instLE : LE Float32 := ⟨le⟩

instance decLt (a b : Float32) : Decidable (a < b) := by
  show Decidable (lt a b)
  cases a <;> cases b <;> unfold lt <;> infer_instance

instance decLe (a b : Float32) : Decidable (a ≤ b) := by
  show Decidable (le a b)
  cases a <;> cases b <;> unfold le <;> infer_instance

/-- The value `b` raised to the floor `a`: `a` when `b < a`, else `b` (so a NaN `b`
stays NaN).  `max 0 x` is the effect of `if (x < 0.f) x = 0.f;`. -/
def max (a b : Float32) : Float32 := if b < a then a else b

/-- The value `b` lowered to the ceiling `a`: `a` when `a < b`, else `b` (so a NaN
`b` stays NaN).  `min c x` is the effect of `if (x > c) x = c;`. -/
def min (a b : Float32) : Float32 := if a < b then a else b

/-- The addition `a + b` is exact: both operands are finite and their exact sum is a
finite binary32 value, so no rounding occurs. -/
def ExactAdd : Float32 → Float32 → Prop
  | finite k _, finite j _ => IsRep (k + j).natAbs
  | _, _ => False

/-- The subtraction `a - b` is exact: both operands are finite and their exact
difference is a finite binary32 value, so no rounding occurs. -/
def ExactSub : Float32 → Float32 → Prop
  | finite k _, finite j _ => IsRep (k - j).natAbs
  | _, _ => False

instance ExactAdd.decidable (a b : Float32) : Decidable (ExactAdd a b) := by
  cases a <;> cases b <;> unfold ExactAdd <;> infer_instance

instance ExactSub.decidable (a b : Float32) : Decidable (ExactSub a b) := by
  cases a <;> cases b <;> unfold ExactSub <;> infer_instance

end Float32

/-! ## The character -/

/-- Engine type `FVector`. -/
structure FVector where
  X : Float32
  Y : Float32
  Z : Float32
  deriving DecidableEq

/-- Engine type `FRotator`; the constructor takes pitch, yaw, roll in this order. -/
structure FRotator where
  Pitch : Float32
  Yaw : Float32
  Roll : Float32
  deriving DecidableEq

/-- Engine enumeration `EAxis`. -/
inductive EAxis where
  | X
  | Y
  | Z
  deriving DecidableEq

/-- The two fields of `UCharacterMovementComponent` that the class reads and writes. -/
structure UCharacterMovementComponent where
  MaxWalkSpeed : Float32
  MaxAcceleration : Float32
  deriving DecidableEq

/-- The part of `AController` that the class reads: `GetControlRotation()`. -/
structure AController where
  ControlRotation : FRotator
  deriving DecidableEq

/-- The fields of `APaparazziCharacter` used by the source file.  `Controller` is
`none` for a null pointer.  `MovementInput` is the log of `AddMovementInput` calls,
oldest first. -/
structure APaparazziCharacter where
  BaseTurnRate : Float32
  BaseLookUpRate : Float32
  Dashing : Bool
  DashTime : Float32
  DashSpeedMultiplier : Float32
  WalkSpeed : Float32
  OrignalAcceleration : Float32
  MovementComponent : UCharacterMovementComponent
  Controller : Option AController
  MovementInput : List (FVector × Float32)
  deriving DecidableEq

namespace APaparazziCharacter

/-- Source line 12: `const float APaparazziCharacter::MAXDASHSTAMINA = 5.f;`. -/
def MAXDASHSTAMINA : Float32 := 5

/-- The constructor (lines 17-58), as an update of the freshly allocated object
`s`: it assigns the turn rates (`45.f`) and the three dash parameters (`false`,
`MAXDASHSTAMINA`, `1.5`).  `WalkSpeed` and `OrignalAcceleration` are not assigned,
so they keep whatever `s` held. -/
def construct (s : APaparazziCharacter) : APaparazziCharacter :=
  { s with
    BaseTurnRate := 45
    BaseLookUpRate := 45
    Dashing := false
    DashTime := MAXDASHSTAMINA
    DashSpeedMultiplier := Float32.lit 3 2 }

/-- Method `BeginPlay` (lines 60-67). -/
def BeginPlay (s : APaparazziCharacter) : APaparazziCharacter :=
  { s with
    WalkSpeed := s.MovementComponent.MaxWalkSpeed
    OrignalAcceleration := s.MovementComponent.MaxAcceleration }

/-- Method `Tick` (lines 70-94). -/
def Tick (s : APaparazziCharacter) (DeltaTime : Float32) : APaparazziCharacter :=
  if s.Dashing = true ∧ s.DashTime > 0 then
    let s1 := { s with MovementComponent :=
      { s.MovementComponent with MaxWalkSpeed := s.WalkSpeed * s.DashSpeedMultiplier } }
    let s2 := { s1 with MovementComponent :=
      { s1.MovementComponent with
        MaxAcceleration := s1.OrignalAcceleration * s1.DashSpeedMultiplier } }
    let s3 := { s2 with DashTime := s2.DashTime - DeltaTime }
    if s3.DashTime < 0 then { s3 with DashTime := 0 } else s3
  else
    let s1 := { s with MovementComponent :=
      { s.MovementComponent with MaxWalkSpeed := s.WalkSpeed } }
    let s2 := { s1 with MovementComponent :=
      { s1.MovementComponent with MaxAcceleration := s1.OrignalAcceleration } }
    if s2.Dashing = false ∧ s2.DashTime < MAXDASHSTAMINA then
      let s3 := { s2 with DashTime := s2.DashTime + DeltaTime }
      if s3.DashTime > MAXDASHSTAMINA then { s3 with DashTime := MAXDASHSTAMINA } else s3
    else s2

/-- Method `GetDashStaminaRate` (lines 96-98): the returned value and the object
after the call. -/
def GetDashStaminaRate (s : APaparazziCharacter) : Float32 × APaparazziCharacter :=
  (s.DashTime / MAXDASHSTAMINA, s)

/-- Method `StartDashing` (lines 118-120). -/
def StartDashing (s : APaparazziCharacter) : APaparazziCharacter :=
  { s with Dashing := true }

/-- Method `StopDashing` (lines 122-124). -/
def StopDashing (s : APaparazziCharacter) : APaparazziCharacter :=
  { s with Dashing := false }

/-- Method `TouchStarted` (lines 131-134); the finger index is the enumerator's
number. -/
def TouchStarted (s : APaparazziCharacter) (_FingerIndex : ℕ) (_Location : FVector) :
    APaparazziCharacter :=
  s.StartDashing

/-- Method `TouchStopped` (lines 136-139). -/
def TouchStopped (s : APaparazziCharacter) (_FingerIndex : ℕ) (_Location : FVector) :
    APaparazziCharacter :=
  s.StopDashing

/-- Engine call `AddMovementInput(WorldDirection, ScaleValue)`: recorded in the log. -/
def AddMovementInput (s : APaparazziCharacter) (WorldDirection : FVector)
    (ScaleValue : Float32) : APaparazziCharacter :=
  { s with MovementInput := s.MovementInput ++ [(WorldDirection, ScaleValue)] }

/-- Method `MoveForward` (lines 141-153). -/
def MoveForward (unitAxis : FRotator → EAxis → FVector) (s : APaparazziCharacter)
    (Value : Float32) : APaparazziCharacter :=
  match s.Controller with
  | none => s
  | some Controller =>
    if Value ≠ 0 then
      let Rotation := Controller.ControlRotation
      let YawRotation : FRotator := ⟨0, Rotation.Yaw, 0⟩
      let Direction := unitAxis YawRotation EAxis.X
      s.AddMovementInput Direction Value
    else s

/-- Method `MoveRight` (lines 155-168). -/
def MoveRight (unitAxis : FRotator → EAxis → FVector) (s : APaparazziCharacter)
    (Value : Float32) : APaparazziCharacter :=
  match s.Controller with
  | none => s
  | some Controller =>
    if Value ≠ 0 then
      let Rotation := Controller.ControlRotation
      let YawRotation : FRotator := ⟨0, Rotation.Yaw, 0⟩
      let Direction := unitAxis YawRotation EAxis.Y
      s.AddMovementInput Direction Value
    else s

end APaparazziCharacter

open APaparazziCharacter

/-- The calls the engine can make on the object after construction. -/
inductive Op where
  | BeginPlay
  | Tick (DeltaTime : Float32)
  | StartDashing
  | StopDashing
  | TouchStarted (FingerIndex : ℕ) (Location : FVector)
  | TouchStopped (FingerIndex : ℕ) (Location : FVector)
  | MoveForward (Value : Float32)
  | MoveRight (Value : Float32)
  deriving DecidableEq

/-- An operation is admissible when the elapsed time of a tick is not negative
(`DeltaTime >= 0`, which excludes NaN and allows `+inf`). -/
def Op.admissible : Op → Prop
  | Op.Tick DeltaTime => 0 ≤ DeltaTime
  | _ => True

instance Op.decidableAdmissible (o : Op) : Decidable o.admissible := by
  cases o <;> unfold Op.admissible <;> infer_instance

/-- One call on the object. -/
def Op.apply (unitAxis : FRotator → EAxis → FVector) (s : APaparazziCharacter) :
    Op → APaparazziCharacter
  | Op.BeginPlay => s.BeginPlay
  | Op.Tick DeltaTime => s.Tick DeltaTime
  | Op.StartDashing => s.StartDashing
  | Op.StopDashing => s.StopDashing
  | Op.TouchStarted FingerIndex Location => s.TouchStarted FingerIndex Location
  | Op.TouchStopped FingerIndex Location => s.TouchStopped FingerIndex Location
  | Op.MoveForward Value => s.MoveForward unitAxis Value
  | Op.MoveRight Value => s.MoveRight unitAxis Value

/-- A sequence of calls, first call first. -/
def run (unitAxis : FRotator → EAxis → FVector) (s : APaparazziCharacter) (ops : List Op) :
    APaparazziCharacter :=
  ops.foldl (Op.apply unitAxis) s

/-- A sequence of ticks, first tick first. -/
def ticks (s : APaparazziCharacter) (dts : List Float32) : APaparazziCharacter :=
  dts.foldl Tick s

/-- The stamina range invariant `0 <= DashTime <= MAXDASHSTAMINA`. -/
def StaminaInv (s : APaparazziCharacter) : Prop :=
  0 ≤ s.DashTime ∧ s.DashTime ≤ MAXDASHSTAMINA

instance StaminaInv.decidable (s : APaparazziCharacter) : Decidable (StaminaInv s) := by
  unfold StaminaInv; infer_instance

/-- No rounding occurs in any stamina update of the two schedules `Tick(dt1); Tick(dt2)`
and `Tick(dt1 + dt2)`: the sum `dt1 + dt2` is exact, and so are the three
subtractions (dash held) or additions (dash released) from `DashTime`. -/
def SplitExact (s : APaparazziCharacter) (dt1 dt2 : Float32) : Prop :=
  Float32.ExactAdd dt1 dt2 ∧
    if s.Dashing = true then
      Float32.ExactSub s.DashTime dt1 ∧ Float32.ExactSub (s.DashTime - dt1) dt2 ∧
        Float32.ExactSub s.DashTime (dt1 + dt2)
    else
      Float32.ExactAdd s.DashTime dt1 ∧ Float32.ExactAdd (s.DashTime + dt1) dt2 ∧
        Float32.ExactAdd s.DashTime (dt1 + dt2)

instance SplitExact.decidable (s : APaparazziCharacter) (dt1 dt2 : Float32) :
    Decidable (SplitExact s dt1 dt2) := by
  unfold SplitExact; infer_instance

/-- A sample object: all numeric fields 0 except the engine defaults 600 and 2048 of
the movement component, no controller, empty input log.  The constructor and
`BeginPlay` are run on it to obtain concrete reachable states. -/
def blank : APaparazziCharacter :=
  { BaseTurnRate := 0, BaseLookUpRate := 0, Dashing := false, DashTime := 0,
    DashSpeedMultiplier := 0, WalkSpeed := 0, OrignalAcceleration := 0,
    MovementComponent := ⟨600, 2048⟩, Controller := none, MovementInput := [] }

/-- A sample of the engine's axis lookup: exact for zero pitch and roll at yaw
0, 90, 180 and 270 degrees (forward is `(cos yaw, sin yaw, 0)`, right is
`(-sin yaw, cos yaw, 0)`, up is `(0, 0, 1)`), and the zero vector elsewhere. -/
def quarterTurnAxis (R : FRotator) (A : EAxis) : FVector :=
  if R.Pitch = 0 ∧ R.Roll = 0 then
    let c : Float32 :=
      if R.Yaw = 0 then 1 else if R.Yaw = 180 then Float32.lit (-1) 1 else 0
    let sn : Float32 :=
      if R.Yaw = 90 then 1 else if R.Yaw = 270 then Float32.lit (-1) 1 else 0
    if R.Yaw = 0 ∨ R.Yaw = 90 ∨ R.Yaw = 180 ∨ R.Yaw = 270 then
      match A with
      | EAxis.X => ⟨c, sn, 0⟩
      | EAxis.Y => ⟨Float32.neg sn, c, 0⟩
      | EAxis.Z => ⟨0, 0, 1⟩
    else ⟨0, 0, 0⟩
  else ⟨0, 0, 0⟩

/-- A sample dashing state: constructed, activated, dash pressed, stamina at `t`. -/
def dashingAt (t : Float32) : APaparazziCharacter :=
  { (construct blank).BeginPlay.StartDashing with DashTime := t }

/-- A sample recovering state: constructed, activated, dash not pressed, stamina at `t`. -/
def recoveringAt (t : Float32) : APaparazziCharacter :=
  { (construct blank).BeginPlay with DashTime := t }

/-- A sample state with a controller: constructed, activated, control rotation
`(Pitch, Yaw, Roll) = (30, 90, 15)`. -/
def steered : APaparazziCharacter :=
  { (construct blank).BeginPlay with Controller := some ⟨⟨30, 90, 15⟩⟩ }

/-! ## Rounding: bounds, exactness and representability -/

theorem shiftAux_spec : ∀ fuel n : ℕ, n ≤ fuel →
    n < 2 ^ (24 + shiftAux fuel n) ∧
      (0 < shiftAux fuel n → 2 ^ (23 + shiftAux fuel n) ≤ n) := by
  intro fuel
  induction fuel with
  | zero =>
    intro n hn
    have h0 : n = 0 := by omega
    subst h0
    simp [shiftAux]
  | succ f ih =>
    intro n hn
    unfold shiftAux
    split_ifs with h
    · exact ⟨by simpa using h, by simp⟩
    · have h24 : 2 ^ 24 ≤ n := not_lt.mp h
      have hhalf : n / 2 ≤ f := by omega
      obtain ⟨a, b⟩ := ih (n / 2) hhalf
      constructor
      · have e : 2 ^ (24 + (shiftAux f (n / 2) + 1)) = 2 * 2 ^ (24 + shiftAux f (n / 2)) := by
          ring
        rw [e]; omega
      · intro _
        have e : 2 ^ (23 + (shiftAux f (n / 2) + 1)) = 2 * 2 ^ (23 + shiftAux f (n / 2)) := by
          ring
        rw [e]
        by_cases hs : 0 < shiftAux f (n / 2)
        · have := b hs; omega
        · have hs0 : shiftAux f (n / 2) = 0 := by omega
          rw [hs0]
          norm_num
          omega

theorem shift_lt (n : ℕ) : n < 2 ^ (24 + shift n) := (shiftAux_spec n n le_rfl).1

theorem shift_pos_le (n : ℕ) (h : 0 < shift n) : 2 ^ (23 + shift n) ≤ n :=
  (shiftAux_spec n n le_rfl).2 h

theorem shift_mono {m n : ℕ} (h : m ≤ n) : shift m ≤ shift n := by
  by_cases hm : 0 < shift m
  · have h1 := shift_pos_le m hm
    have h2 := shift_lt n
    have h3 : 2 ^ (23 + shift m) < 2 ^ (24 + shift n) := lt_of_le_of_lt (le_trans h1 h) h2
    have h4 := (Nat.pow_lt_pow_iff_right (by norm_num : 1 < 2)).mp h3
    omega
  · omega

theorem rne_le {p d c : ℕ} (hd : 0 < d) (h : p ≤ c * d) : rne p d ≤ c := by
  have hdiv : p / d ≤ c := Nat.div_le_of_le_mul (by rw [Nat.mul_comm]; exact h)
  rcases Nat.lt_or_ge (p / d) c with hlt | hge
  · unfold rne; split_ifs <;> omega
  · have hq : p / d = c := le_antisymm hdiv hge
    have hm : p % d = 0 := by
      have := Nat.div_add_mod p d
      rw [hq] at this
      have h2 : d * c = c * d := Nat.mul_comm d c
      omega
    unfold rne
    rw [hm, hq]
    simp [hd]

theorem le_rne {p d c : ℕ} (hd : 0 < d) (h : c * d ≤ p) : c ≤ rne p d := by
  have hdiv : c ≤ p / d := (Nat.le_div_iff_mul_le hd).mpr h
  unfold rne; split_ifs <;> omega

theorem rne_mul {a d : ℕ} (hd : 0 < d) : rne (a * d) d = a :=
  le_antisymm (rne_le hd le_rfl) (le_rne hd le_rfl)

theorem roundMag_le {p q c : ℕ} (hq : 0 < q) (hc : c % 2 ^ shift c = 0) (h : p ≤ c * q) :
    roundMag p q ≤ c := by
  have hn : p / q ≤ c := Nat.div_le_of_le_mul (by rw [Nat.mul_comm]; exact h)
  have hs : shift (p / q) ≤ shift c := shift_mono hn
  have hdvd : 2 ^ shift (p / q) ∣ c :=
    dvd_trans (Nat.pow_dvd_pow 2 hs) (Nat.dvd_of_mod_eq_zero hc)
  obtain ⟨c1, hc1⟩ := hdvd
  unfold roundMag
  have hd : 0 < q * 2 ^ shift (p / q) := Nat.mul_pos hq (Nat.pos_pow_of_pos _ (by norm_num))
  have hle : rne p (q * 2 ^ shift (p / q)) ≤ c1 := by
    apply rne_le hd
    calc p ≤ c * q := h
      _ = c1 * (q * 2 ^ shift (p / q)) := by rw [hc1]; ring
  calc rne p (q * 2 ^ shift (p / q)) * 2 ^ shift (p / q)
      ≤ c1 * 2 ^ shift (p / q) := Nat.mul_le_mul_right _ hle
    _ = c := by rw [hc1]; ring

theorem le_roundMag {p q c : ℕ} (hq : 0 < q) (hc : c % 2 ^ shift c = 0) (h : c * q ≤ p) :
    c ≤ roundMag p q := by
  have hn : c ≤ p / q := (Nat.le_div_iff_mul_le hq).mpr h
  have hs : shift c ≤ shift (p / q) := shift_mono hn
  have hd : 0 < q * 2 ^ shift (p / q) := Nat.mul_pos hq (Nat.pos_pow_of_pos _ (by norm_num))
  unfold roundMag
  rcases Nat.eq_or_lt_of_le hs with heq | hlt
  · obtain ⟨c1, hc1⟩ := Nat.dvd_of_mod_eq_zero hc
    rw [heq] at hc1
    have hle : c1 ≤ rne p (q * 2 ^ shift (p / q)) := by
      apply le_rne hd
      calc c1 * (q * 2 ^ shift (p / q)) = c * q := by rw [hc1]; ring
        _ ≤ p := h
    calc c = c1 * 2 ^ shift (p / q) := by rw [hc1]; ring
      _ ≤ rne p (q * 2 ^ shift (p / q)) * 2 ^ shift (p / q) := Nat.mul_le_mul_right _ hle
  · have hpos : 0 < shift (p / q) := by omega
    have h23 : 2 ^ (23 + shift (p / q)) ≤ p / q := shift_pos_le _ hpos
    have hp : 2 ^ (23 + shift (p / q)) * q ≤ p := (Nat.le_div_iff_mul_le hq).mp h23
    have hle : 2 ^ 23 ≤ rne p (q * 2 ^ shift (p / q)) := by
      apply le_rne hd
      calc 2 ^ 23 * (q * 2 ^ shift (p / q)) = 2 ^ (23 + shift (p / q)) * q := by ring
        _ ≤ p := hp
    have hclt : c < 2 ^ (24 + shift c) := shift_lt c
    have hpow : 2 ^ (24 + shift c) ≤ 2 ^ (23 + shift (p / q)) :=
      Nat.pow_le_pow_right (by norm_num) (by omega)
    calc c ≤ 2 ^ (23 + shift (p / q)) := le_of_lt (lt_of_lt_of_le hclt hpow)
      _ = 2 ^ 23 * 2 ^ shift (p / q) := by ring
      _ ≤ rne p (q * 2 ^ shift (p / q)) * 2 ^ shift (p / q) := Nat.mul_le_mul_right _ hle

theorem roundMag_exact {q c : ℕ} (hq : 0 < q) (hc : c % 2 ^ shift c = 0) :
    roundMag (c * q) q = c :=
  le_antisymm (roundMag_le hq hc le_rfl) (le_roundMag hq hc le_rfl)

theorem roundMag_dvd {p q : ℕ} (hq : 0 < q) :
    roundMag p q % 2 ^ shift (roundMag p q) = 0 := by
  have hd : 0 < q * 2 ^ shift (p / q) := Nat.mul_pos hq (Nat.pos_pow_of_pos _ (by norm_num))
  have hn : p / q < 2 ^ (24 + shift (p / q)) := shift_lt _
  have hp : p < 2 ^ (24 + shift (p / q)) * q := (Nat.div_lt_iff_lt_mul hq).mp hn
  have he : rne p (q * 2 ^ shift (p / q)) ≤ 2 ^ 24 := by
    apply rne_le hd
    calc p ≤ 2 ^ (24 + shift (p / q)) * q := le_of_lt hp
      _ = 2 ^ 24 * (q * 2 ^ shift (p / q)) := by ring
  have hm : roundMag p q ≤ 2 ^ (24 + shift (p / q)) := by
    unfold roundMag
    calc rne p (q * 2 ^ shift (p / q)) * 2 ^ shift (p / q) ≤ 2 ^ 24 * 2 ^ shift (p / q) :=
          Nat.mul_le_mul_right _ he
      _ = 2 ^ (24 + shift (p / q)) := by ring
  apply Nat.mod_eq_zero_of_dvd
  rcases Nat.eq_or_lt_of_le hm with heq | hlt
  · rw [heq]
    apply Nat.pow_dvd_pow
    by_cases hs : 0 < shift (2 ^ (24 + shift (p / q)))
    · have h1 := shift_pos_le _ hs
      have h2 := (Nat.pow_le_pow_iff_right (by norm_num : 1 < 2)).mp h1
      omega
    · omega
  · have hs : shift (roundMag p q) ≤ shift (p / q) := by
      by_cases hs : 0 < shift (roundMag p q)
      · have h1 := shift_pos_le _ hs
        have h2 := (Nat.pow_lt_pow_iff_right (by norm_num : 1 < 2)).mp (lt_of_le_of_lt h1 hlt)
        omega
      · omega
    have : 2 ^ shift (p / q) ∣ roundMag p q := by
      unfold roundMag
      exact Dvd.intro_left _ rfl
    exact dvd_trans (Nat.pow_dvd_pow 2 hs) this


theorem isRep_roundMag_iff {p q : ℕ} (hq : 0 < q) :
    IsRep (roundMag p q) ↔ roundMag p q < 2 ^ 149 * 2 ^ 128 :=
  ⟨fun h => h.2, fun h => ⟨roundMag_dvd hq, h⟩⟩

namespace Float32

theorem finite_congr {a b : ℤ} (e : a = b) (ha : IsRep a.natAbs) (hb : IsRep b.natAbs) :
    finite a ha = finite b hb := by
  subst e; rfl

theorem finite_lt_finite {k j : ℤ} (hk : IsRep k.natAbs) (hj : IsRep j.natAbs) :
    finite k hk < finite j hj ↔ k < j := Iff.rfl

theorem finite_le_finite {k j : ℤ} (hk : IsRep k.natAbs) (hj : IsRep j.natAbs) :
    finite k hk ≤ finite j hj ↔ k ≤ j := Iff.rfl

theorem isRep_roundMag {p q c : ℕ} (hq : 0 < q) (hc : IsRep c) (h : roundMag p q ≤ c) :
    IsRep (roundMag p q) :=
  ⟨roundMag_dvd hq, lt_of_le_of_lt h hc.2⟩

theorem round_le {p c : ℤ} {q : ℕ} (hq : 0 < q) (hc : IsRep c.natAbs) (h : p ≤ c * q) :
    round p q ≤ finite c hc := by
  have hqz : (0 : ℤ) < q := by exact_mod_cast hq
  unfold round
  by_cases hp : p < 0
  · by_cases hcn : c < 0
    · obtain ⟨p1, rfl⟩ := Int.exists_eq_neg_ofNat (le_of_lt hp)
      obtain ⟨c1, rfl⟩ := Int.exists_eq_neg_ofNat (le_of_lt hcn)
      have hnat : c1 * q ≤ p1 := by
        have h1 : ((c1 * q : ℕ) : ℤ) ≤ (p1 : ℤ) := by push_cast; linarith
        exact_mod_cast h1
      have hc1 : IsRep c1 := by simpa using hc
      have hle := le_roundMag hq hc1.1 hnat
      simp only [Int.natAbs_neg, Int.natAbs_ofNat]
      split_ifs with hr
      · show -(roundMag p1 q : ℤ) ≤ -(c1 : ℤ)
        have : (c1 : ℤ) ≤ (roundMag p1 q : ℤ) := by exact_mod_cast hle
        linarith
      · trivial
    · split_ifs with hr
      · show -(roundMag p.natAbs q : ℤ) ≤ c
        have : (0 : ℤ) ≤ (roundMag p.natAbs q : ℤ) := Int.natCast_nonneg _
        linarith
      · trivial
  · have hp0 : 0 ≤ p := not_lt.mp hp
    have hc0 : 0 ≤ c := by
      by_contra hneg
      have : c * q < 0 := mul_neg_of_neg_of_pos (not_le.mp hneg) hqz
      linarith
    obtain ⟨p1, rfl⟩ := Int.eq_ofNat_of_zero_le hp0
    obtain ⟨c1, rfl⟩ := Int.eq_ofNat_of_zero_le hc0
    have hnat : p1 ≤ c1 * q := by exact_mod_cast h
    have hc1 : IsRep c1 := by simpa using hc
    have hle := roundMag_le hq hc1.1 hnat
    have hrep := isRep_roundMag hq hc1 hle
    simp only [Int.natAbs_ofNat]
    rw [dif_pos hrep, if_neg hp]
    show (roundMag p1 q : ℤ) ≤ (c1 : ℤ)
    exact_mod_cast hle

theorem le_round {p c : ℤ} {q : ℕ} (hq : 0 < q) (hc : IsRep c.natAbs) (h : c * q ≤ p) :
    finite c hc ≤ round p q := by
  have hqz : (0 : ℤ) < q := by exact_mod_cast hq
  unfold round
  by_cases hp : p < 0
  · have hcn : c < 0 := by
      by_contra hnn
      have : 0 ≤ c * q := mul_nonneg (not_lt.mp hnn) (le_of_lt hqz)
      linarith
    obtain ⟨p1, rfl⟩ := Int.exists_eq_neg_ofNat (le_of_lt hp)
    obtain ⟨c1, rfl⟩ := Int.exists_eq_neg_ofNat (le_of_lt hcn)
    have hnat : p1 ≤ c1 * q := by
      have h1 : (p1 : ℤ) ≤ ((c1 * q : ℕ) : ℤ) := by push_cast; linarith
      exact_mod_cast h1
    have hc1 : IsRep c1 := by simpa using hc
    have hle := roundMag_le hq hc1.1 hnat
    have hrep := isRep_roundMag hq hc1 hle
    simp only [Int.natAbs_neg, Int.natAbs_ofNat]
    rw [dif_pos hrep, if_pos hp]
    show -(c1 : ℤ) ≤ -(roundMag p1 q : ℤ)
    have : (roundMag p1 q : ℤ) ≤ (c1 : ℤ) := by exact_mod_cast hle
    linarith
  · have hp0 : 0 ≤ p := not_lt.mp hp
    by_cases hcn : c < 0
    · split_ifs with hr
      · show c ≤ (roundMag p.natAbs q : ℤ)
        have : (0 : ℤ) ≤ (roundMag p.natAbs q : ℤ) := Int.natCast_nonneg _
        linarith
      · trivial
    · obtain ⟨p1, rfl⟩ := Int.eq_ofNat_of_zero_le hp0
      obtain ⟨c1, rfl⟩ := Int.eq_ofNat_of_zero_le (not_lt.mp hcn)
      have hnat : c1 * q ≤ p1 := by exact_mod_cast h
      have hc1 : IsRep c1 := by simpa using hc
      have hle := le_roundMag hq hc1.1 hnat
      simp only [Int.natAbs_ofNat]
      split_ifs with hr
      · show (c1 : ℤ) ≤ (roundMag p1 q : ℤ)
        exact_mod_cast hle
      · trivial

theorem round_exact {k : ℤ} {q : ℕ} (hq : 0 < q) (h : IsRep k.natAbs) :
    round (k * q) q = finite k h := by
  have hqz : (0 : ℤ) < q := by exact_mod_cast hq
  have hm : roundMag (k * q).natAbs q = k.natAbs := by
    rw [Int.natAbs_mul, Int.natAbs_ofNat]
    exact roundMag_exact hq h.1
  unfold round
  rw [dif_pos (by rw [hm]; exact h)]
  by_cases hk : k < 0
  · rw [if_pos (mul_neg_of_neg_of_pos hk hqz)]
    apply finite_congr
    rw [hm]
    omega
  · rw [if_neg (by
      have : 0 ≤ k * q := mul_nonneg (not_lt.mp hk) (le_of_lt hqz)
      exact not_lt.mpr this)]
    apply finite_congr
    rw [hm]
    omega

end Float32


/-! ## Order and arithmetic facts about `Float32` -/

namespace Float32

theorem zero_eq : (0 : Float32) = finite 0 (by decide) := by decide

theorem one_eq : (1 : Float32) = finite (2 ^ 149) (by decide) := by decide

theorem five_eq : (5 : Float32) = finite (5 * 2 ^ 149) (by decide) := by decide

theorem le_of_not_lt {x a b : Float32} (hxa : x ≤ a) (hb : b ≠ nan) (h : ¬ x < b) :
    b ≤ x := by
  change le x a at hxa
  change ¬ lt x b at h
  show le b x
  cases x <;> cases a <;> cases b <;> simp_all [le, lt]

theorem le_of_not_gt {x a b : Float32} (hax : a ≤ x) (hb : b ≠ nan) (h : ¬ b < x) :
    x ≤ b := by
  change le a x at hax
  change ¬ lt b x at h
  show le x b
  cases x <;> cases a <;> cases b <;> simp_all [le, lt]

theorem eq_of_ge_of_not_gt {x : Float32} {c : ℤ} {hc : IsRep c.natAbs}
    (hle : finite c hc ≤ x) (h : ¬ finite c hc < x) : x = finite c hc := by
  change le (finite c hc) x at hle
  change ¬ lt (finite c hc) x at h
  cases x with
  | finite k hk =>
    simp only [le, lt] at hle h
    exact finite_congr (by omega) _ _
  | posInf => simp [lt] at h
  | negInf => simp [le] at hle
  | nan => simp [le] at hle

theorem sub_le {a b : Float32} {c : ℤ} {hc : IsRep c.natAbs} (ha : a ≤ finite c hc)
    (hb : 0 ≤ b) : a - b ≤ finite c hc := by
  rw [zero_eq] at hb
  change le a (finite c hc) at ha
  change le (finite 0 _) b at hb
  show sub a b ≤ finite c hc
  cases a with
  | finite k hk =>
    cases b with
    | finite j hj =>
      simp only [le] at ha hb
      show round (k + -j) 1 ≤ finite c hc
      exact round_le (by norm_num) hc (by push_cast; omega)
    | posInf => trivial
    | negInf => simp [le] at hb
    | nan => simp [le] at hb
  | posInf => simp [le] at ha
  | negInf =>
    cases b with
    | finite j hj => trivial
    | posInf => trivial
    | negInf => simp [le] at hb
    | nan => simp [le] at hb
  | nan => simp [le] at ha

theorem le_add {a b : Float32} {c : ℤ} {hc : IsRep c.natAbs} (ha : finite c hc ≤ a)
    (hb : 0 ≤ b) : finite c hc ≤ a + b := by
  rw [zero_eq] at hb
  change le (finite c hc) a at ha
  change le (finite 0 _) b at hb
  show finite c hc ≤ add a b
  cases a with
  | finite k hk =>
    cases b with
    | finite j hj =>
      simp only [le] at ha hb
      show finite c hc ≤ round (k + j) 1
      exact le_round (by norm_num) hc (by push_cast; omega)
    | posInf => trivial
    | negInf => simp [le] at hb
    | nan => simp [le] at hb
  | posInf =>
    cases b with
    | finite j hj => trivial
    | posInf => trivial
    | negInf => simp [le] at hb
    | nan => simp [le] at hb
  | negInf => simp [le] at ha
  | nan => simp [le] at ha

theorem zero_add_self (x : Float32) : 0 + x = x := by
  rw [zero_eq]
  show add (finite 0 _) x = x
  cases x with
  | finite j hj =>
    show round (0 + j) 1 = finite j hj
    have e : (0 : ℤ) + j = j * ((1 : ℕ) : ℤ) := by push_cast; ring
    rw [e]
    exact round_exact (by norm_num) hj
  | posInf => rfl
  | negInf => rfl
  | nan => rfl

theorem mul_one_self (x : Float32) : x * 1 = x := by
  rw [one_eq]
  show mul x (finite (2 ^ 149) _) = x
  cases x with
  | finite k hk =>
    show round (k * 2 ^ 149) (2 ^ 149) = finite k hk
    have e : k * (2 : ℤ) ^ 149 = k * (((2 : ℕ) ^ 149 : ℕ) : ℤ) := by push_cast; rfl
    rw [e]
    exact round_exact (by positivity) hk
  | posInf => rfl
  | negInf => rfl
  | nan => rfl

theorem add_of_exact {k j : ℤ} {hk : IsRep k.natAbs} {hj : IsRep j.natAbs}
    (h : ExactAdd (finite k hk) (finite j hj)) :
    finite k hk + finite j hj = finite (k + j) h := by
  show round (k + j) 1 = finite (k + j) h
  have e : k + j = (k + j) * ((1 : ℕ) : ℤ) := by push_cast; ring
  exact (congrArg (fun p => round p 1) e).trans (round_exact (by norm_num) h)

theorem sub_of_exact {k j : ℤ} {hk : IsRep k.natAbs} {hj : IsRep j.natAbs}
    (h : ExactSub (finite k hk) (finite j hj)) :
    finite k hk - finite j hj = finite (k - j) h := by
  show round (k + -j) 1 = finite (k - j) h
  have e : k + -j = (k - j) * ((1 : ℕ) : ℤ) := by push_cast; ring
  exact (congrArg (fun p => round p 1) e).trans (round_exact (by norm_num) h)

end Float32

/-! ## Helper lemmas about `Tick` -/

theorem MAX_eq : MAXDASHSTAMINA = Float32.finite (5 * 2 ^ 149) (by decide) := by decide

theorem Tick_dash (s : APaparazziCharacter) (dt : Float32) (hD : s.Dashing = true)
    (hT : 0 < s.DashTime) :
    s.Tick dt = { s with
      MovementComponent := ⟨s.WalkSpeed * s.DashSpeedMultiplier,
        s.OrignalAcceleration * s.DashSpeedMultiplier⟩
      DashTime := Float32.max 0 (s.DashTime - dt) } := by
  unfold Tick Float32.max
  simp only [hD, hT, gt_iff_lt, and_self, if_true]
  split_ifs <;> rfl

theorem Tick_exhausted (s : APaparazziCharacter) (dt : Float32) (hD : s.Dashing = true)
    (hT : ¬ 0 < s.DashTime) :
    s.Tick dt = { s with
      MovementComponent := ⟨s.WalkSpeed, s.OrignalAcceleration⟩ } := by
  unfold Tick
  simp [hD, hT]

theorem Tick_recover (s : APaparazziCharacter) (dt : Float32) (hD : s.Dashing = false)
    (hT : s.DashTime < MAXDASHSTAMINA) :
    s.Tick dt = { s with
      MovementComponent := ⟨s.WalkSpeed, s.OrignalAcceleration⟩
      DashTime := Float32.min MAXDASHSTAMINA (s.DashTime + dt) } := by
  unfold Tick Float32.min
  simp only [hD, hT, gt_iff_lt, Bool.false_eq_true, false_and, if_false, and_self, if_true]
  split_ifs <;> rfl

theorem Tick_full (s : APaparazziCharacter) (dt : Float32) (hD : s.Dashing = false)
    (hT : ¬ s.DashTime < MAXDASHSTAMINA) :
    s.Tick dt = { s with
      MovementComponent := ⟨s.WalkSpeed, s.OrignalAcceleration⟩ } := by
  unfold Tick
  simp [hD, hT]

/-! ## Helper lemmas about the invariant -/

theorem StaminaInv_Tick (s : APaparazziCharacter) (dt : Float32) (hdt : 0 ≤ dt)
    (h : StaminaInv s) : StaminaInv (s.Tick dt) := by
  obtain ⟨h0, h5⟩ := h
  have hz5 : (0 : Float32) ≤ MAXDASHSTAMINA := by decide
  have hzz : (0 : Float32) ≤ 0 := by decide
  have h55 : MAXDASHSTAMINA ≤ MAXDASHSTAMINA := by decide
  cases hD : s.Dashing
  · by_cases hT : s.DashTime < MAXDASHSTAMINA
    · rw [Tick_recover s dt hD hT]
      show 0 ≤ Float32.min MAXDASHSTAMINA (s.DashTime + dt) ∧
        Float32.min MAXDASHSTAMINA (s.DashTime + dt) ≤ MAXDASHSTAMINA
      have hr : 0 ≤ s.DashTime + dt := by
        rw [Float32.zero_eq] at h0 ⊢
        exact Float32.le_add h0 hdt
      unfold Float32.min
      split_ifs with c
      · exact ⟨hz5, h55⟩
      · exact ⟨hr, Float32.le_of_not_gt hr (by decide) c⟩
    · rw [Tick_full s dt hD hT]
      exact ⟨h0, h5⟩
  · by_cases hT : 0 < s.DashTime
    · rw [Tick_dash s dt hD hT]
      show 0 ≤ Float32.max 0 (s.DashTime - dt) ∧
        Float32.max 0 (s.DashTime - dt) ≤ MAXDASHSTAMINA
      have hr : s.DashTime - dt ≤ MAXDASHSTAMINA := by
        rw [MAX_eq] at h5 ⊢
        exact Float32.sub_le h5 hdt
      unfold Float32.max
      split_ifs with c
      · exact ⟨hzz, hz5⟩
      · exact ⟨Float32.le_of_not_lt hr (by decide) c, hr⟩
    · rw [Tick_exhausted s dt hD hT]
      exact ⟨h0, h5⟩

theorem StaminaInv_apply (unitAxis : FRotator → EAxis → FVector) (s : APaparazziCharacter)
    (o : Op) (ho : o.admissible) (h : StaminaInv s) : StaminaInv (o.apply unitAxis s) := by
  cases o with
  | Tick dt => exact StaminaInv_Tick s dt ho h
  | BeginPlay => exact h
  | StartDashing => exact h
  | StopDashing => exact h
  | TouchStarted i l => exact h
  | TouchStopped i l => exact h
  | MoveForward v =>
    show StaminaInv (s.MoveForward unitAxis v)
    unfold MoveForward
    split
    · exact h
    · split_ifs
      · exact h
      · exact h
  | MoveRight v =>
    show StaminaInv (s.MoveRight unitAxis v)
    unfold MoveRight
    split
    · exact h
    · split_ifs
      · exact h
      · exact h

theorem StaminaInv_run (unitAxis : FRotator → EAxis → FVector) (ops : List Op) :
    ∀ s : APaparazziCharacter, (∀ o ∈ ops, o.admissible) → StaminaInv s →
      StaminaInv (run unitAxis s ops) := by
  induction ops with
  | nil => intro s _ h; exact h
  | cons o rest ih =>
    intro s hadm h
    have ho : o.admissible := hadm o (List.mem_cons_self o rest)
    have hrest : ∀ o1 ∈ rest, o1.admissible := fun o1 hm => hadm o1 (List.mem_cons_of_mem o hm)
    exact ih (o.apply unitAxis s) hrest (StaminaInv_apply unitAxis s o ho h)

theorem StaminaInv_construct (s : APaparazziCharacter) : StaminaInv (construct s) := by
  show (0 : Float32) ≤ MAXDASHSTAMINA ∧ MAXDASHSTAMINA ≤ MAXDASHSTAMINA
  decide

theorem StaminaInv_finite {s : APaparazziCharacter} (h : StaminaInv s) :
    ∃ (k : ℤ) (hk : IsRep k.natAbs),
      s.DashTime = Float32.finite k hk ∧ 0 ≤ k ∧ k ≤ 5 * 2 ^ 149 := by
  obtain ⟨h0, h5⟩ := h
  rw [Float32.zero_eq] at h0
  rw [MAX_eq] at h5
  change Float32.le _ _ at h0
  change Float32.le _ _ at h5
  cases hd : s.DashTime with
  | finite k hk =>
    rw [hd] at h0 h5
    exact ⟨k, hk, rfl, h0, h5⟩
  | posInf => rw [hd] at h5; simp [Float32.le] at h5
  | negInf => rw [hd] at h0; simp [Float32.le] at h0
  | nan => rw [hd] at h0; simp [Float32.le] at h0

/-! ## Helper lemmas: what the calls leave unchanged -/

theorem Tick_frame (s : APaparazziCharacter) (dt : Float32) :
    (s.Tick dt).Dashing = s.Dashing ∧ (s.Tick dt).WalkSpeed = s.WalkSpeed ∧
    (s.Tick dt).OrignalAcceleration = s.OrignalAcceleration ∧
    (s.Tick dt).DashSpeedMultiplier = s.DashSpeedMultiplier ∧
    (s.Tick dt).BaseTurnRate = s.BaseTurnRate ∧
    (s.Tick dt).BaseLookUpRate = s.BaseLookUpRate ∧
    (s.Tick dt).Controller = s.Controller ∧
    (s.Tick dt).MovementInput = s.MovementInput := by
  unfold Tick
  dsimp only
  split_ifs <;> simp

theorem Tick_movement (s : APaparazziCharacter) (dt : Float32) :
    (s.Tick dt).MovementComponent =
      if s.Dashing = true ∧ 0 < s.DashTime then
        ⟨s.WalkSpeed * s.DashSpeedMultiplier, s.OrignalAcceleration * s.DashSpeedMultiplier⟩
      else ⟨s.WalkSpeed, s.OrignalAcceleration⟩ := by
  unfold Tick
  dsimp only
  split_ifs <;> simp

theorem Tick_DashTime (s : APaparazziCharacter) (dt : Float32) :
    (s.Tick dt).DashTime =
      if s.Dashing = true ∧ 0 < s.DashTime then Float32.max 0 (s.DashTime - dt)
      else if s.Dashing = false ∧ s.DashTime < MAXDASHSTAMINA then
        Float32.min MAXDASHSTAMINA (s.DashTime + dt)
      else s.DashTime := by
  cases hD : s.Dashing
  · by_cases hT : s.DashTime < MAXDASHSTAMINA
    · rw [Tick_recover s dt hD hT]; simp [hT]
    · rw [Tick_full s dt hD hT]; simp [hT]
  · by_cases hT : 0 < s.DashTime
    · rw [Tick_dash s dt hD hT]; simp [hT]
    · rw [Tick_exhausted s dt hD hT]; simp [hT]

theorem apply_DashSpeedMultiplier (unitAxis : FRotator → EAxis → FVector)
    (s : APaparazziCharacter) (o : Op) :
    (o.apply unitAxis s).DashSpeedMultiplier = s.DashSpeedMultiplier := by
  cases o with
  | Tick dt => exact (Tick_frame s dt).2.2.2.1
  | BeginPlay => rfl
  | StartDashing => rfl
  | StopDashing => rfl
  | TouchStarted i l => rfl
  | TouchStopped i l => rfl
  | MoveForward v =>
    show (s.MoveForward unitAxis v).DashSpeedMultiplier = _
    unfold MoveForward
    split
    · rfl
    · split_ifs <;> rfl
  | MoveRight v =>
    show (s.MoveRight unitAxis v).DashSpeedMultiplier = _
    unfold MoveRight
    split
    · rfl
    · split_ifs <;> rfl

theorem run_DashSpeedMultiplier (unitAxis : FRotator → EAxis → FVector) (ops : List Op) :
    ∀ s : APaparazziCharacter,
      (run unitAxis s ops).DashSpeedMultiplier = s.DashSpeedMultiplier := by
  induction ops with
  | nil => intro s; rfl
  | cons o rest ih =>
    intro s
    show (run unitAxis (o.apply unitAxis s) rest).DashSpeedMultiplier = _
    rw [ih, apply_DashSpeedMultiplier]

theorem ticks_cons (s : APaparazziCharacter) (dt : Float32) (dts : List Float32) :
    ticks s (dt :: dts) = ticks (s.Tick dt) dts := rfl

theorem ticks_exhausted (dts : List Float32) :
    ∀ s : APaparazziCharacter, s.Dashing = true → s.DashTime = 0 → dts ≠ [] →
      ticks s dts = { s with MovementComponent := ⟨s.WalkSpeed, s.OrignalAcceleration⟩ } := by
  induction dts with
  | nil => intro s _ _ h; exact absurd rfl h
  | cons dt rest ih =>
    intro s hD hT _
    rw [ticks_cons, Tick_exhausted s dt hD (by rw [hT]; decide)]
    by_cases hr : rest = []
    · subst hr; rfl
    · exact ih _ hD hT hr

theorem ticks_frame (dts : List Float32) :
    ∀ s : APaparazziCharacter,
      (ticks s dts).Dashing = s.Dashing ∧ (ticks s dts).WalkSpeed = s.WalkSpeed ∧
      (ticks s dts).OrignalAcceleration = s.OrignalAcceleration ∧
      (ticks s dts).DashSpeedMultiplier = s.DashSpeedMultiplier := by
  induction dts with
  | nil => intro s; exact ⟨rfl, rfl, rfl, rfl⟩
  | cons dt rest ih =>
    intro s
    rw [ticks_cons]
    obtain ⟨h1, h2, h3, h4⟩ := ih (s.Tick dt)
    obtain ⟨g1, g2, g3, g4, _⟩ := Tick_frame s dt
    exact ⟨h1.trans g1, h2.trans g2, h3.trans g3, h4.trans g4⟩

theorem Tick_movement_mul (s : APaparazziCharacter) (dt : Float32) :
    ∃ m : Float32, (m = 1 ∨ m = s.DashSpeedMultiplier) ∧
      (s.Tick dt).MovementComponent = ⟨s.WalkSpeed * m, s.OrignalAcceleration * m⟩ := by
  rw [Tick_movement]
  by_cases c : s.Dashing = true ∧ 0 < s.DashTime
  · exact ⟨s.DashSpeedMultiplier, Or.inr rfl, by rw [if_pos c]⟩
  · exact ⟨1, Or.inl rfl, by
      rw [if_neg c, Float32.mul_one_self, Float32.mul_one_self]⟩

theorem ticks_movement (dts : List Float32) :
    ∀ s : APaparazziCharacter, dts ≠ [] →
      ∃ m : Float32, (m = 1 ∨ m = s.DashSpeedMultiplier) ∧
        (ticks s dts).MovementComponent = ⟨s.WalkSpeed * m, s.OrignalAcceleration * m⟩ := by
  induction dts with
  | nil => intro s h; exact absurd rfl h
  | cons dt rest ih =>
    intro s _
    rw [ticks_cons]
    by_cases hr : rest = []
    · subst hr
      exact Tick_movement_mul s dt
    · obtain ⟨m, hm, e⟩ := ih (s.Tick dt) hr
      obtain ⟨_, g2, g3, g4, _⟩ := Tick_frame s dt
      rw [g2, g3] at e
      rw [g4] at hm
      exact ⟨m, hm, e⟩

theorem MoveForward_null (unitAxis : FRotator → EAxis → FVector) (s : APaparazziCharacter)
    (Value : Float32) (h : s.Controller = none ∨ Value = 0) :
    s.MoveForward unitAxis Value = s := by
  unfold MoveForward
  split
  · rfl
  · rename_i c hc
    rcases h with h | h
    · rw [hc] at h; exact absurd h (by simp)
    · simp [h]

theorem MoveRight_null (unitAxis : FRotator → EAxis → FVector) (s : APaparazziCharacter)
    (Value : Float32) (h : s.Controller = none ∨ Value = 0) :
    s.MoveRight unitAxis Value = s := by
  unfold MoveRight
  split
  · rfl
  · rename_i c hc
    rcases h with h | h
    · rw [hc] at h; exact absurd h (by simp)
    · simp [h]

theorem MoveForward_some (unitAxis : FRotator → EAxis → FVector) (s : APaparazziCharacter)
    (Value : Float32) (c : AController) (hc : s.Controller = some c) (hv : Value ≠ 0) :
    s.MoveForward unitAxis Value =
      { s with MovementInput :=
          s.MovementInput ++ [(unitAxis ⟨0, c.ControlRotation.Yaw, 0⟩ EAxis.X, Value)] } := by
  unfold MoveForward
  simp [hv, AddMovementInput, hc]

theorem MoveRight_some (unitAxis : FRotator → EAxis → FVector) (s : APaparazziCharacter)
    (Value : Float32) (c : AController) (hc : s.Controller = some c) (hv : Value ≠ 0) :
    s.MoveRight unitAxis Value =
      { s with MovementInput :=
          s.MovementInput ++ [(unitAxis ⟨0, c.ControlRotation.Yaw, 0⟩ EAxis.Y, Value)] } := by
  unfold MoveRight
  simp [hv, AddMovementInput, hc]

theorem Move_dash_state (unitAxis : FRotator → EAxis → FVector) (s : APaparazziCharacter)
    (Value : Float32) :
    (s.MoveForward unitAxis Value).Dashing = s.Dashing ∧
    (s.MoveForward unitAxis Value).DashTime = s.DashTime ∧
    (s.MoveRight unitAxis Value).Dashing = s.Dashing ∧
    (s.MoveRight unitAxis Value).DashTime = s.DashTime := by
  cases hc : s.Controller with
  | none =>
    rw [MoveForward_null unitAxis s Value (Or.inl hc),
      MoveRight_null unitAxis s Value (Or.inl hc)]
    exact ⟨rfl, rfl, rfl, rfl⟩
  | some c =>
    by_cases hv : Value = 0
    · rw [MoveForward_null unitAxis s Value (Or.inr hv),
        MoveRight_null unitAxis s Value (Or.inr hv)]
      exact ⟨rfl, rfl, rfl, rfl⟩
    · rw [MoveForward_some unitAxis s Value c hc hv, MoveRight_some unitAxis s Value c hc hv]
      exact ⟨rfl, rfl, rfl, rfl⟩

/-! ## Helper lemmas about `GetDashStaminaRate` and exact updates -/

theorem div_MAX (k : ℤ) (hk : IsRep k.natAbs) :
    Float32.finite k hk / MAXDASHSTAMINA = Float32.round (k * 2 ^ 149) (5 * 2 ^ 149) := by
  rw [MAX_eq]
  show Float32.div _ _ = _
  simp only [Float32.div]
  rw [if_neg (by decide), if_neg (by decide)]
  rfl

theorem isRep_add_le_five {n : ℕ} (h : IsRep n) (hlt : n < 5 * 2 ^ 149) :
    n + 2 ^ 128 ≤ 5 * 2 ^ 149 := by
  by_cases hn : n < 2 ^ 151
  · omega
  · have hs : 128 ≤ shift n := by
      have h1 := shift_lt n
      have h2 : 2 ^ 151 < 2 ^ (24 + shift n) := lt_of_le_of_lt (not_lt.mp hn) h1
      have h3 := (Nat.pow_lt_pow_iff_right (by norm_num : 1 < 2)).mp h2
      omega
    have hd : 2 ^ 128 ∣ n := dvd_trans (Nat.pow_dvd_pow 2 hs) (Nat.dvd_of_mod_eq_zero h.1)
    obtain ⟨t, rfl⟩ := hd
    omega

theorem rate_nonneg (k : ℤ) (h0 : 0 ≤ k) :
    (0 : Float32) ≤ Float32.round (k * 2 ^ 149) (5 * 2 ^ 149) := by
  rw [Float32.zero_eq]
  apply Float32.le_round (by norm_num)
  rw [zero_mul]
  exact mul_nonneg h0 (by positivity)

theorem rate_le_one (k : ℤ) (h5 : k ≤ 5 * 2 ^ 149) :
    Float32.round (k * 2 ^ 149) (5 * 2 ^ 149) ≤ 1 := by
  rw [Float32.one_eq]
  apply Float32.round_le (by norm_num)
  push_cast
  calc k * 2 ^ 149 ≤ (5 * 2 ^ 149) * 2 ^ 149 := mul_le_mul_of_nonneg_right h5 (by positivity)
    _ = 2 ^ 149 * (5 * 2 ^ 149) := by ring

theorem rate_eq_zero_iff (k : ℤ) (h0 : 0 ≤ k) :
    Float32.round (k * 2 ^ 149) (5 * 2 ^ 149) = 0 ↔ k ≤ 2 := by
  constructor
  · intro hr
    by_contra hk3
    by_cases hk4 : k ≤ 4
    · have h3 : 3 ≤ k := by omega
      interval_cases k
      · revert hr; decide
      · revert hr; decide
    · have hle : Float32.finite 1 (by decide) ≤ Float32.round (k * 2 ^ 149) (5 * 2 ^ 149) := by
        apply Float32.le_round (by norm_num)
        push_cast
        have : (5 : ℤ) ≤ k := by omega
        calc (1 : ℤ) * (5 * 2 ^ 149) = 5 * 2 ^ 149 := by ring
          _ ≤ k * 2 ^ 149 := mul_le_mul_of_nonneg_right this (by positivity)
      rw [hr] at hle
      revert hle
      decide
  · intro hk2
    interval_cases k <;> decide

theorem rate_eq_one_iff (k : ℤ) (hk : IsRep k.natAbs) (h0 : 0 ≤ k) (h5 : k ≤ 5 * 2 ^ 149) :
    Float32.round (k * 2 ^ 149) (5 * 2 ^ 149) = 1 ↔ k = 5 * 2 ^ 149 := by
  constructor
  · intro hr
    by_contra hne
    have hlt : k < 5 * 2 ^ 149 := lt_of_le_of_ne h5 hne
    obtain ⟨n, rfl⟩ := Int.eq_ofNat_of_zero_le h0
    have hn : n < 5 * 2 ^ 149 := by exact_mod_cast hlt
    have hstep := isRep_add_le_five (by simpa using hk) hn
    have hstepz : (n : ℤ) + 2 ^ 128 ≤ 5 * 2 ^ 149 := by exact_mod_cast hstep
    have hle : Float32.round ((n : ℤ) * 2 ^ 149) (5 * 2 ^ 149) ≤
        Float32.finite (2 ^ 149 - 2 ^ 125) (by decide) := by
      apply Float32.round_le (by norm_num)
      push_cast
      have hn2 : (n : ℤ) ≤ 5 * 2 ^ 149 - 2 ^ 128 := by linarith
      calc (n : ℤ) * 2 ^ 149 ≤ (5 * 2 ^ 149 - 2 ^ 128) * 2 ^ 149 :=
            mul_le_mul_of_nonneg_right hn2 (by positivity)
        _ ≤ (2 ^ 149 - 2 ^ 125) * (5 * 2 ^ 149) := by norm_num
    rw [hr] at hle
    revert hle
    decide
  · intro hk5
    subst hk5
    decide

theorem ExactAdd_finite {a b : Float32} (h : Float32.ExactAdd a b) :
    ∃ (k : ℤ) (hk : IsRep k.natAbs) (j : ℤ) (hj : IsRep j.natAbs),
      a = Float32.finite k hk ∧ b = Float32.finite j hj := by
  cases a <;> cases b <;> simp only [Float32.ExactAdd] at h
  exact ⟨_, _, _, _, rfl, rfl⟩

theorem ExactSub_finite {a b : Float32} (h : Float32.ExactSub a b) :
    ∃ (k : ℤ) (hk : IsRep k.natAbs) (j : ℤ) (hj : IsRep j.natAbs),
      a = Float32.finite k hk ∧ b = Float32.finite j hj := by
  cases a <;> cases b <;> simp only [Float32.ExactSub] at h
  exact ⟨_, _, _, _, rfl, rfl⟩

theorem finite_nonneg {j : ℤ} {hj : IsRep j.natAbs} (h : (0 : Float32) ≤ Float32.finite j hj) :
    0 ≤ j := by
  rw [Float32.zero_eq] at h
  exact h

theorem zero_lt_finite {k : ℤ} {hk : IsRep k.natAbs} :
    (0 : Float32) < Float32.finite k hk ↔ 0 < k := by
  rw [Float32.zero_eq]
  exact Iff.rfl

theorem finite_lt_zero {k : ℤ} {hk : IsRep k.natAbs} :
    Float32.finite k hk < 0 ↔ k < 0 := by
  rw [Float32.zero_eq]
  exact Iff.rfl

theorem finite_lt_MAX {k : ℤ} {hk : IsRep k.natAbs} :
    Float32.finite k hk < MAXDASHSTAMINA ↔ k < 5 * 2 ^ 149 := by
  rw [MAX_eq]
  exact Iff.rfl

theorem MAX_lt_finite {k : ℤ} {hk : IsRep k.natAbs} :
    MAXDASHSTAMINA < Float32.finite k hk ↔ 5 * 2 ^ 149 < k := by
  rw [MAX_eq]
  exact Iff.rfl

theorem max_zero_finite_of_nonpos {k : ℤ} {hk : IsRep k.natAbs} (h : k ≤ 0) :
    Float32.max 0 (Float32.finite k hk) = 0 := by
  unfold Float32.max
  split_ifs with c
  · rfl
  · rw [finite_lt_zero] at c
    rw [Float32.zero_eq]
    exact Float32.finite_congr (by omega) _ _

theorem max_zero_finite_of_pos {k : ℤ} {hk : IsRep k.natAbs} (h : 0 ≤ k) :
    Float32.max 0 (Float32.finite k hk) = Float32.finite k hk := by
  unfold Float32.max
  rw [if_neg (by rw [finite_lt_zero]; omega)]

theorem min_MAX_finite_of_ge {k : ℤ} {hk : IsRep k.natAbs} (h : 5 * 2 ^ 149 ≤ k) :
    Float32.min MAXDASHSTAMINA (Float32.finite k hk) = MAXDASHSTAMINA := by
  unfold Float32.min
  split_ifs with c
  · rfl
  · rw [MAX_lt_finite] at c
    rw [MAX_eq]
    exact Float32.finite_congr (by omega) _ _

theorem min_MAX_finite_of_le {k : ℤ} {hk : IsRep k.natAbs} (h : k ≤ 5 * 2 ^ 149) :
    Float32.min MAXDASHSTAMINA (Float32.finite k hk) = Float32.finite k hk := by
  unfold Float32.min
  rw [if_neg (by rw [MAX_lt_finite]; omega)]

theorem split_dashing (s : APaparazziCharacter) (k j1 j2 : ℤ) (hk : IsRep k.natAbs)
    (hj1 : IsRep j1.natAbs) (hj2 : IsRep j2.natAbs) (hD : s.Dashing = true)
    (hDT : s.DashTime = Float32.finite k hk) (h2 : 0 ≤ j2)
    (hs : Float32.ExactAdd (Float32.finite j1 hj1) (Float32.finite j2 hj2))
    (ha : Float32.ExactSub s.DashTime (Float32.finite j1 hj1))
    (hb : Float32.ExactSub (s.DashTime - Float32.finite j1 hj1) (Float32.finite j2 hj2))
    (hc : Float32.ExactSub s.DashTime (Float32.finite j1 hj1 + Float32.finite j2 hj2)) :
    ((s.Tick (Float32.finite j1 hj1)).Tick (Float32.finite j2 hj2)).DashTime =
      (s.Tick (Float32.finite j1 hj1 + Float32.finite j2 hj2)).DashTime := by
  have e12 := Float32.add_of_exact hs
  rw [hDT] at ha hb hc
  have ea := Float32.sub_of_exact ha
  rw [ea] at hb
  have eb := Float32.sub_of_exact hb
  rw [e12] at hc ⊢
  have ec := Float32.sub_of_exact hc
  have hD1 : (s.Tick (Float32.finite j1 hj1)).Dashing = true :=
    (Tick_frame s _).1.trans hD
  by_cases hT : 0 < k
  · have hT0 : 0 < s.DashTime := by rw [hDT]; exact zero_lt_finite.mpr hT
    have t1 : (s.Tick (Float32.finite j1 hj1)).DashTime =
        Float32.max 0 (Float32.finite (k - j1) ha) := by
      rw [Tick_dash s _ hD hT0]
      show Float32.max 0 (s.DashTime - _) = _
      rw [hDT, ea]
    have tB : (s.Tick (Float32.finite (j1 + j2) hs)).DashTime =
        Float32.max 0 (Float32.finite (k - (j1 + j2)) hc) := by
      rw [Tick_dash s _ hD hT0]
      show Float32.max 0 (s.DashTime - _) = _
      rw [hDT, ec]
    by_cases hpos : 0 < k - j1
    · rw [max_zero_finite_of_pos (le_of_lt hpos)] at t1
      have hT1 : 0 < (s.Tick (Float32.finite j1 hj1)).DashTime := by
        rw [t1]; exact zero_lt_finite.mpr hpos
      rw [Tick_dash _ _ hD1 hT1, tB]
      show Float32.max 0 ((s.Tick (Float32.finite j1 hj1)).DashTime - _) = _
      rw [t1, eb]
      congr 1
      exact Float32.finite_congr (by ring) _ _
    · rw [max_zero_finite_of_nonpos (not_lt.mp hpos)] at t1
      have hT1 : ¬ 0 < (s.Tick (Float32.finite j1 hj1)).DashTime := by
        rw [t1]; decide
      rw [Tick_exhausted _ _ hD1 hT1, tB]
      show (s.Tick (Float32.finite j1 hj1)).DashTime = _
      rw [t1, max_zero_finite_of_nonpos (by omega)]
  · have hT0 : ¬ 0 < s.DashTime := by rw [hDT]; exact fun h => hT (zero_lt_finite.mp h)
    have t1 : (s.Tick (Float32.finite j1 hj1)).DashTime = s.DashTime := by
      rw [Tick_exhausted s _ hD hT0]
    have hT1 : ¬ 0 < (s.Tick (Float32.finite j1 hj1)).DashTime := by rw [t1]; exact hT0
    rw [Tick_exhausted _ _ hD1 hT1, Tick_exhausted s (Float32.finite (j1 + j2) hs) hD hT0]
    exact t1

theorem split_recovering (s : APaparazziCharacter) (k j1 j2 : ℤ) (hk : IsRep k.natAbs)
    (hj1 : IsRep j1.natAbs) (hj2 : IsRep j2.natAbs) (hD : s.Dashing = false)
    (hDT : s.DashTime = Float32.finite k hk) (h2 : 0 ≤ j2)
    (hs : Float32.ExactAdd (Float32.finite j1 hj1) (Float32.finite j2 hj2))
    (ha : Float32.ExactAdd s.DashTime (Float32.finite j1 hj1))
    (hb : Float32.ExactAdd (s.DashTime + Float32.finite j1 hj1) (Float32.finite j2 hj2))
    (hc : Float32.ExactAdd s.DashTime (Float32.finite j1 hj1 + Float32.finite j2 hj2)) :
    ((s.Tick (Float32.finite j1 hj1)).Tick (Float32.finite j2 hj2)).DashTime =
      (s.Tick (Float32.finite j1 hj1 + Float32.finite j2 hj2)).DashTime := by
  have e12 := Float32.add_of_exact hs
  rw [hDT] at ha hb hc
  have ea := Float32.add_of_exact ha
  rw [ea] at hb
  have eb := Float32.add_of_exact hb
  rw [e12] at hc ⊢
  have ec := Float32.add_of_exact hc
  have hD1 : (s.Tick (Float32.finite j1 hj1)).Dashing = false :=
    (Tick_frame s _).1.trans hD
  by_cases hT : k < 5 * 2 ^ 149
  · have hT0 : s.DashTime < MAXDASHSTAMINA := by rw [hDT]; exact finite_lt_MAX.mpr hT
    have t1 : (s.Tick (Float32.finite j1 hj1)).DashTime =
        Float32.min MAXDASHSTAMINA (Float32.finite (k + j1) ha) := by
      rw [Tick_recover s _ hD hT0]
      show Float32.min MAXDASHSTAMINA (s.DashTime + _) = _
      rw [hDT, ea]
    have tB : (s.Tick (Float32.finite (j1 + j2) hs)).DashTime =
        Float32.min MAXDASHSTAMINA (Float32.finite (k + (j1 + j2)) hc) := by
      rw [Tick_recover s _ hD hT0]
      show Float32.min MAXDASHSTAMINA (s.DashTime + _) = _
      rw [hDT, ec]
    by_cases hlow : k + j1 < 5 * 2 ^ 149
    · rw [min_MAX_finite_of_le (le_of_lt hlow)] at t1
      have hT1 : (s.Tick (Float32.finite j1 hj1)).DashTime < MAXDASHSTAMINA := by
        rw [t1]; exact finite_lt_MAX.mpr hlow
      rw [Tick_recover _ _ hD1 hT1, tB]
      show Float32.min MAXDASHSTAMINA ((s.Tick (Float32.finite j1 hj1)).DashTime + _) = _
      rw [t1, eb]
      congr 1
      exact Float32.finite_congr (by ring) _ _
    · rw [min_MAX_finite_of_ge (not_lt.mp hlow)] at t1
      have hT1 : ¬ (s.Tick (Float32.finite j1 hj1)).DashTime < MAXDASHSTAMINA := by
        rw [t1]; decide
      rw [Tick_full _ _ hD1 hT1, tB]
      show (s.Tick (Float32.finite j1 hj1)).DashTime = _
      rw [t1, min_MAX_finite_of_ge (by omega)]
  · have hT0 : ¬ s.DashTime < MAXDASHSTAMINA := by
      rw [hDT]; exact fun h => hT (finite_lt_MAX.mp h)
    have t1 : (s.Tick (Float32.finite j1 hj1)).DashTime = s.DashTime := by
      rw [Tick_full s _ hD hT0]
    have hT1 : ¬ (s.Tick (Float32.finite j1 hj1)).DashTime < MAXDASHSTAMINA := by
      rw [t1]; exact hT0
    rw [Tick_full _ _ hD1 hT1, Tick_full s (Float32.finite (j1 + j2) hs) hD hT0]
    exact t1

/-! ## The claims

In every statement below `+`, `-`, `*`, `/`, `<` and `<=` on `Float32` are the
binary32 operations of the source, rounded to nearest with ties to even. -/

/-- C1: the stamina range invariant.  The constructor establishes
`0 <= DashTime <= MAXDASHSTAMINA` with `MAXDASHSTAMINA = 5`; every single call
(`Tick` with a non-negative elapsed time, `StartDashing`, `StopDashing`,
`TouchStarted`, `TouchStopped`, and also `BeginPlay`, `MoveForward`, `MoveRight`)
maps a state satisfying it to a state satisfying it; hence it holds in every state
reached from construction by any finite sequence of such calls. -/
theorem C1_stamina_range_invariant :
    MAXDASHSTAMINA = 5 ∧
    (∀ s : APaparazziCharacter, StaminaInv (construct s)) ∧
    (∀ (s : APaparazziCharacter) (dt : Float32),
      0 ≤ dt → StaminaInv s → StaminaInv (s.Tick dt)) ∧
    (∀ s : APaparazziCharacter, StaminaInv s → StaminaInv s.StartDashing) ∧
    (∀ s : APaparazziCharacter, StaminaInv s → StaminaInv s.StopDashing) ∧
    (∀ (s : APaparazziCharacter) (i : ℕ) (l : FVector),
      StaminaInv s → StaminaInv (s.TouchStarted i l)) ∧
    (∀ (s : APaparazziCharacter) (i : ℕ) (l : FVector),
      StaminaInv s → StaminaInv (s.TouchStopped i l)) ∧
    (∀ (unitAxis : FRotator → EAxis → FVector) (s : APaparazziCharacter) (o : Op),
      o.admissible → StaminaInv s → StaminaInv (o.apply unitAxis s)) ∧
    (∀ (unitAxis : FRotator → EAxis → FVector) (s : APaparazziCharacter) (ops : List Op),
      (∀ o ∈ ops, o.admissible) → StaminaInv (run unitAxis (construct s) ops)) :=
  ⟨rfl, StaminaInv_construct, StaminaInv_Tick, fun _ h => h, fun _ h => h,
    fun _ _ _ h => h, fun _ _ _ h => h, StaminaInv_apply,
    fun unitAxis s ops hadm =>
      StaminaInv_run unitAxis ops (construct s) hadm (StaminaInv_construct s)⟩

/-- C1 at a concrete run: construct, begin play, press dash, tick 7 seconds (stamina
drains to the floor 0), release, tick 2 seconds (stamina recovers to 2); and a run
with an infinite elapsed time, which ends at the cap 5. -/
theorem C1_stamina_range_invariant_witness :
    StaminaInv (run quarterTurnAxis (construct blank)
      [Op.BeginPlay, Op.StartDashing, Op.Tick 7, Op.StopDashing, Op.Tick 2]) ∧
    (run quarterTurnAxis (construct blank)
      [Op.BeginPlay, Op.StartDashing, Op.Tick 7, Op.StopDashing, Op.Tick 2]).DashTime = 2 ∧
    (run quarterTurnAxis (construct blank)
      [Op.StartDashing, Op.Tick 1, Op.StopDashing, Op.Tick Float32.posInf]).DashTime = 5 :=
  ⟨C1_stamina_range_invariant.2.2.2.2.2.2.2.2 quarterTurnAxis blank
      [Op.BeginPlay, Op.StartDashing, Op.Tick 7, Op.StopDashing, Op.Tick 2]
      (by decide),
    by decide, by decide⟩

/-- C2: the dash branch of `Tick`.  For every state with `Dashing` set and
`DashTime > 0` and every elapsed time `dt >= 0`, after `Tick(dt)` the movement
component holds `WalkSpeed * DashSpeedMultiplier` and
`OrignalAcceleration * DashSpeedMultiplier`, and the new `DashTime` is
`max(0, DashTime - dt)`: the difference, replaced by 0 when it is below 0.  The
multiplier is 1.5 after construction and in every state reached from it. -/
theorem C2_dash_branch :
    (∀ (s : APaparazziCharacter) (dt : Float32),
      s.Dashing = true → 0 < s.DashTime → 0 ≤ dt →
      (s.Tick dt).MovementComponent.MaxWalkSpeed = s.WalkSpeed * s.DashSpeedMultiplier ∧
      (s.Tick dt).MovementComponent.MaxAcceleration =
        s.OrignalAcceleration * s.DashSpeedMultiplier ∧
      (s.Tick dt).DashTime = Float32.max 0 (s.DashTime - dt)) ∧
    (∀ (unitAxis : FRotator → EAxis → FVector) (s0 : APaparazziCharacter) (ops : List Op),
      (run unitAxis (construct s0) ops).DashSpeedMultiplier = Float32.lit 3 2) := by
  refine ⟨?_, ?_⟩
  · intro s dt hD hT _
    rw [Tick_dash s dt hD hT]
    exact ⟨rfl, rfl, rfl⟩
  · intro unitAxis s0 ops
    rw [run_DashSpeedMultiplier]
    rfl

/-- C2 at the spec's example: dashing with stamina 2.0 and a tick of 1.0 gives
stamina 1.0 with the multiplier 1.5 applied (600 becomes 900, 2048 becomes 3072).
With `WalkSpeed = 0.1f` the stored speed is the rounded product 5033165 / 2^25, and
with `WalkSpeed = 3e38f` it is `+inf`. -/
theorem C2_dash_branch_witness :
    (dashingAt 2).Dashing = true ∧ (dashingAt 2).DashTime = 2 ∧
    (dashingAt 2).DashSpeedMultiplier = Float32.lit 3 2 ∧
    ((dashingAt 2).Tick 1).DashTime = 1 ∧
    ((dashingAt 2).Tick 1).MovementComponent.MaxWalkSpeed = 900 ∧
    ((dashingAt 2).Tick 1).MovementComponent.MaxAcceleration = 3072 ∧
    (({ dashingAt 2 with WalkSpeed := Float32.lit 1 10 }).Tick 1).MovementComponent.MaxWalkSpeed
      = Float32.lit 5033165 (2 ^ 25) ∧
    (({ dashingAt 2 with WalkSpeed := Float32.lit (3 * 10 ^ 38) 1 }).Tick
      1).MovementComponent.MaxWalkSpeed = Float32.posInf := by
  have h := C2_dash_branch.1 (dashingAt 2) 1 rfl (by decide) (by decide)
  have g := C2_dash_branch.1 { dashingAt 2 with WalkSpeed := Float32.lit 1 10 } 1 rfl
    (by decide) (by decide)
  have g2 := C2_dash_branch.1 { dashingAt 2 with WalkSpeed := Float32.lit (3 * 10 ^ 38) 1 } 1
    rfl (by decide) (by decide)
  refine ⟨rfl, rfl, rfl, ?_, ?_, ?_, ?_, ?_⟩
  · rw [h.2.2]; decide
  · rw [h.1]; decide
  · rw [h.2.1]; decide
  · rw [g.1]; decide
  · rw [g2.1]; decide

/-- C3: the recovery branch of `Tick`.  For every state with `Dashing` clear and
every elapsed time `dt >= 0`, after `Tick(dt)` the movement component holds the
baselines `WalkSpeed` and `OrignalAcceleration`, and the new `DashTime` is
`min(MAXDASHSTAMINA, DashTime + dt)` (the sum, replaced by the cap when it is above
the cap) when `DashTime < MAXDASHSTAMINA` and is unchanged otherwise. -/
theorem C3_recovery_branch (s : APaparazziCharacter) (dt : Float32)
    (hD : s.Dashing = false) (_hdt : 0 ≤ dt) :
    (s.Tick dt).MovementComponent.MaxWalkSpeed = s.WalkSpeed ∧
    (s.Tick dt).MovementComponent.MaxAcceleration = s.OrignalAcceleration ∧
    (s.DashTime < MAXDASHSTAMINA →
      (s.Tick dt).DashTime = Float32.min MAXDASHSTAMINA (s.DashTime + dt)) ∧
    (¬ s.DashTime < MAXDASHSTAMINA → (s.Tick dt).DashTime = s.DashTime) := by
  by_cases hT : s.DashTime < MAXDASHSTAMINA
  · rw [Tick_recover s dt hD hT]
    exact ⟨rfl, rfl, fun _ => rfl, fun h => absurd hT h⟩
  · rw [Tick_full s dt hD hT]
    exact ⟨rfl, rfl, fun h => absurd h hT, fun _ => rfl⟩

/-- C3 at the spec's examples: not dashing, stamina 3.0 and a tick of 1.0 gives 4.0;
stamina 4.8f and a tick of 1.0 gives 5.0, not 5.8f; the baseline 600 is in force.
With stamina 3.0 and a tick of 1e-8f the sum rounds back to 3.0. -/
theorem C3_recovery_branch_witness :
    ((recoveringAt 3).Tick 1).DashTime = 4 ∧
    ((recoveringAt (Float32.lit 48 10)).Tick 1).DashTime = 5 ∧
    ((recoveringAt (Float32.lit 48 10)).Tick 1).DashTime ≠ Float32.lit 58 10 ∧
    ((recoveringAt 3).Tick 1).MovementComponent.MaxWalkSpeed = 600 ∧
    ((recoveringAt 3).Tick (Float32.lit 1 (10 ^ 8))).DashTime = 3 := by
  have h3 := C3_recovery_branch (recoveringAt 3) 1 rfl (by decide)
  have h48 := C3_recovery_branch (recoveringAt (Float32.lit 48 10)) 1 rfl (by decide)
  have h8 := C3_recovery_branch (recoveringAt 3) (Float32.lit 1 (10 ^ 8)) rfl (by decide)
  have e48 : ((recoveringAt (Float32.lit 48 10)).Tick 1).DashTime = 5 := by
    rw [h48.2.2.1 (by decide)]; decide
  refine ⟨?_, e48, ?_, ?_, ?_⟩
  · rw [h3.2.2.1 (by decide)]; decide
  · rw [e48]; decide
  · rw [h3.1]; decide
  · rw [h8.2.2.1 (by decide)]; decide

/-- C4: the regeneration asymmetry.  From a state with `Dashing` set and
`DashTime = 0`, after any non-empty finite sequence of ticks with elapsed times
`>= 0` (and no release in between) `DashTime` is still 0, `Dashing` is still set,
and the movement component holds the baselines `WalkSpeed` and
`OrignalAcceleration`, which are themselves unchanged.  Once the dash input is
released, the next tick with `dt > 0` raises the stamina to `min(MAXDASHSTAMINA, dt)`,
which is positive. -/
theorem C4_regeneration_asymmetry (s : APaparazziCharacter) (dts : List Float32)
    (hD : s.Dashing = true) (hT : s.DashTime = 0) (_hdts : ∀ dt ∈ dts, 0 ≤ dt)
    (hne : dts ≠ []) :
    (ticks s dts).DashTime = 0 ∧ (ticks s dts).Dashing = true ∧
    (ticks s dts).MovementComponent.MaxWalkSpeed = s.WalkSpeed ∧
    (ticks s dts).MovementComponent.MaxAcceleration = s.OrignalAcceleration ∧
    (ticks s dts).WalkSpeed = s.WalkSpeed ∧
    (ticks s dts).OrignalAcceleration = s.OrignalAcceleration ∧
    (∀ dt : Float32, 0 < dt →
      ((ticks s dts).StopDashing.Tick dt).DashTime = Float32.min MAXDASHSTAMINA dt ∧
      0 < ((ticks s dts).StopDashing.Tick dt).DashTime) := by
  rw [ticks_exhausted dts s hD hT hne]
  refine ⟨hT, hD, rfl, rfl, rfl, rfl, ?_⟩
  intro dt hdt
  have h5 : (0 : Float32) < MAXDASHSTAMINA := by decide
  rw [Tick_recover _ dt rfl (by show s.DashTime < MAXDASHSTAMINA; rw [hT]; exact h5)]
  have e : s.DashTime + dt = dt := by rw [hT, Float32.zero_add_self]
  refine ⟨?_, ?_⟩
  · show Float32.min MAXDASHSTAMINA (s.DashTime + dt) = _
    rw [e]
  · show 0 < Float32.min MAXDASHSTAMINA (s.DashTime + dt)
    rw [e]
    unfold Float32.min
    split_ifs
    · exact h5
    · exact hdt

/-- C4 at the spec's example and beyond: dash held with stamina 0; after ticks of
1, 0 and 3 seconds the stamina is still 0 and the speed is the baseline 600; after
the release a tick of 1 second gives stamina 1. -/
theorem C4_regeneration_asymmetry_witness :
    (dashingAt 0).Dashing = true ∧ (dashingAt 0).DashTime = 0 ∧
    (ticks (dashingAt 0) [1, 0, 3]).DashTime = 0 ∧
    (ticks (dashingAt 0) [1, 0, 3]).Dashing = true ∧
    (ticks (dashingAt 0) [1, 0, 3]).MovementComponent.MaxWalkSpeed = 600 ∧
    ((ticks (dashingAt 0) [1, 0, 3]).StopDashing.Tick 1).DashTime = 1 := by
  have h := C4_regeneration_asymmetry (dashingAt 0) [1, 0, 3] rfl rfl
    (by decide) (by decide)
  refine ⟨rfl, rfl, h.1, h.2.1, ?_, ?_⟩
  · rw [h.2.2.1]; decide
  · rw [(h.2.2.2.2.2.2 1 (by decide)).1]
    decide

/-- C5, as amended: `GetDashStaminaRate` returns exactly the binary32 quotient
`DashTime / MAXDASHSTAMINA`, that is `DashTime / 5`, and leaves the object unchanged.
In every state satisfying the stamina range invariant the value lies in `[0, 1]`, is
1 iff `DashTime = MAXDASHSTAMINA`, is 0 when `DashTime = 0`, and is 0 iff
`DashTime <= 2^-148` (so also for the two smallest positive values `2^-149` and
`2^-148`, whose quotient rounds to 0); in particular the value lies in `[0, 1]` in
every state reached from construction by admissible calls. -/
theorem C5_stamina_rate :
    MAXDASHSTAMINA = 5 ∧
    (∀ s : APaparazziCharacter,
      s.GetDashStaminaRate.1 = s.DashTime / MAXDASHSTAMINA ∧ s.GetDashStaminaRate.2 = s) ∧
    (∀ s : APaparazziCharacter, StaminaInv s →
      0 ≤ s.GetDashStaminaRate.1 ∧ s.GetDashStaminaRate.1 ≤ 1 ∧
      (s.DashTime = 0 → s.GetDashStaminaRate.1 = 0) ∧
      (s.GetDashStaminaRate.1 = 0 ↔ s.DashTime ≤ Float32.finite 2 (by decide)) ∧
      (s.GetDashStaminaRate.1 = 1 ↔ s.DashTime = MAXDASHSTAMINA)) ∧
    (∀ (unitAxis : FRotator → EAxis → FVector) (s0 : APaparazziCharacter) (ops : List Op),
      (∀ o ∈ ops, o.admissible) →
      0 ≤ (run unitAxis (construct s0) ops).GetDashStaminaRate.1 ∧
      (run unitAxis (construct s0) ops).GetDashStaminaRate.1 ≤ 1) := by
  have main : ∀ s : APaparazziCharacter, StaminaInv s →
      0 ≤ s.GetDashStaminaRate.1 ∧ s.GetDashStaminaRate.1 ≤ 1 ∧
      (s.DashTime = 0 → s.GetDashStaminaRate.1 = 0) ∧
      (s.GetDashStaminaRate.1 = 0 ↔ s.DashTime ≤ Float32.finite 2 (by decide)) ∧
      (s.GetDashStaminaRate.1 = 1 ↔ s.DashTime = MAXDASHSTAMINA) := by
    intro s h
    obtain ⟨k, hk, hDT, h0, h5⟩ := StaminaInv_finite h
    have hr : s.GetDashStaminaRate.1 = Float32.round (k * 2 ^ 149) (5 * 2 ^ 149) := by
      show s.DashTime / MAXDASHSTAMINA = _
      rw [hDT, div_MAX]
    rw [hr, hDT]
    refine ⟨rate_nonneg k h0, rate_le_one k h5, ?_, ?_, ?_⟩
    · intro hz
      rw [Float32.zero_eq] at hz
      have hk0 : k = 0 := by injection hz
      exact (rate_eq_zero_iff k h0).mpr (by omega)
    · exact (rate_eq_zero_iff k h0).trans Iff.rfl
    · rw [rate_eq_one_iff k hk h0 h5, MAX_eq]
      constructor
      · intro e; exact Float32.finite_congr e _ _
      · intro e; injection e
  refine ⟨rfl, fun s => ⟨rfl, rfl⟩, main, ?_⟩
  intro unitAxis s0 ops hadm
  have h := main _ (StaminaInv_run unitAxis ops (construct s0) hadm (StaminaInv_construct s0))
  exact ⟨h.1, h.2.1⟩

/-- C5 at the spec's example: stamina 2.5 is inside the range and the returned
rate is 0.5; stamina 1.0 returns the rounded quotient 13421773 / 2^26. -/
theorem C5_stamina_rate_witness :
    StaminaInv (recoveringAt (Float32.lit 5 2)) ∧
    (recoveringAt (Float32.lit 5 2)).GetDashStaminaRate.1 = Float32.lit 1 2 ∧
    0 ≤ (recoveringAt (Float32.lit 5 2)).GetDashStaminaRate.1 ∧
    (recoveringAt (Float32.lit 5 2)).GetDashStaminaRate.1 ≤ 1 ∧
    (recoveringAt 1).GetDashStaminaRate.1 = Float32.lit 13421773 (2 ^ 26) := by
  have hinv : StaminaInv (recoveringAt (Float32.lit 5 2)) := by decide
  have h := C5_stamina_rate.2.2.1 (recoveringAt (Float32.lit 5 2)) hinv
  exact ⟨hinv, by decide, h.1, h.2.1, by decide⟩

/-- C5 as stated fails: the state reached by construct, begin play, press dash,
tick 5, release, tick `2^-149` satisfies the stamina range invariant and has
`DashTime = 2^-149`, which is not 0, yet `GetDashStaminaRate` returns 0. -/
theorem C5_stamina_rate_counterexample :
    (∀ o ∈ [Op.BeginPlay, Op.StartDashing, Op.Tick 5, Op.StopDashing,
      Op.Tick (Float32.finite 1 (by decide))], o.admissible) ∧
    StaminaInv (run quarterTurnAxis (construct blank)
      [Op.BeginPlay, Op.StartDashing, Op.Tick 5, Op.StopDashing,
        Op.Tick (Float32.finite 1 (by decide))]) ∧
    (run quarterTurnAxis (construct blank)
      [Op.BeginPlay, Op.StartDashing, Op.Tick 5, Op.StopDashing,
        Op.Tick (Float32.finite 1 (by decide))]).DashTime = Float32.finite 1 (by decide) ∧
    (run quarterTurnAxis (construct blank)
      [Op.BeginPlay, Op.StartDashing, Op.Tick 5, Op.StopDashing,
        Op.Tick (Float32.finite 1 (by decide))]).GetDashStaminaRate.1 = 0 ∧
    ¬ ((run quarterTurnAxis (construct blank)
      [Op.BeginPlay, Op.StartDashing, Op.Tick 5, Op.StopDashing,
        Op.Tick (Float32.finite 1 (by decide))]).GetDashStaminaRate.1 = 0 ↔
      (run quarterTurnAxis (construct blank)
      [Op.BeginPlay, Op.StartDashing, Op.Tick 5, Op.StopDashing,
        Op.Tick (Float32.finite 1 (by decide))]).DashTime = 0) := by
  refine ⟨by decide, by decide, by decide, by decide, ?_⟩
  intro h
  exact absurd (h.mp (by decide)) (by decide)

/-- C6: the dash input transitions.  For every state, `StartDashing` and
`TouchStarted` (any finger index and location) give the same state with `Dashing`
set, and `StopDashing` and `TouchStopped` give the same state with `Dashing` clear;
`DashTime`, `WalkSpeed`, `OrignalAcceleration`, `DashSpeedMultiplier` and the movement
component are unchanged.  A start event followed by a stop event leaves `DashTime`
unchanged and `Dashing` clear, whatever `Dashing` was before. -/
theorem C6_dash_input_transitions (s : APaparazziCharacter) (i j : ℕ) (l k : FVector) :
    (s.StartDashing = { s with Dashing := true } ∧
      s.TouchStarted i l = { s with Dashing := true } ∧
      s.StopDashing = { s with Dashing := false } ∧
      s.TouchStopped i l = { s with Dashing := false }) ∧
    (s.StartDashing.Dashing = true ∧ s.StartDashing.DashTime = s.DashTime ∧
      s.StartDashing.WalkSpeed = s.WalkSpeed ∧
      s.StartDashing.OrignalAcceleration = s.OrignalAcceleration ∧
      s.StartDashing.DashSpeedMultiplier = s.DashSpeedMultiplier ∧
      s.StartDashing.MovementComponent = s.MovementComponent) ∧
    (s.StopDashing.Dashing = false ∧ s.StopDashing.DashTime = s.DashTime ∧
      s.StopDashing.WalkSpeed = s.WalkSpeed ∧
      s.StopDashing.OrignalAcceleration = s.OrignalAcceleration ∧
      s.StopDashing.DashSpeedMultiplier = s.DashSpeedMultiplier ∧
      s.StopDashing.MovementComponent = s.MovementComponent) ∧
    (s.StartDashing.StopDashing = { s with Dashing := false } ∧
      (s.TouchStarted i l).StopDashing = { s with Dashing := false } ∧
      s.StartDashing.TouchStopped j k = { s with Dashing := false } ∧
      (s.TouchStarted i l).TouchStopped j k = { s with Dashing := false }) ∧
    (s.StartDashing.StopDashing.DashTime = s.DashTime ∧
      s.StartDashing.StopDashing.Dashing = false ∧
      ((s.TouchStarted i l).TouchStopped j k).DashTime = s.DashTime ∧
      ((s.TouchStarted i l).TouchStopped j k).Dashing = false) :=
  ⟨⟨rfl, rfl, rfl, rfl⟩, ⟨rfl, rfl, rfl, rfl, rfl, rfl⟩, ⟨rfl, rfl, rfl, rfl, rfl, rfl⟩,
    ⟨rfl, rfl, rfl, rfl⟩, ⟨rfl, rfl, rfl, rfl⟩⟩

/-- C7: `Tick` treats the baselines as read-only and overwrites the movement
component on every tick.  For every state and every `dt`, `Tick(dt)` leaves `Dashing`,
`WalkSpeed`, `OrignalAcceleration` and `DashSpeedMultiplier` unchanged; the new
`MaxWalkSpeed` and `MaxAcceleration` are `WalkSpeed * DashSpeedMultiplier` and
`OrignalAcceleration * DashSpeedMultiplier` when `Dashing` and `DashTime > 0` held
before the tick and `WalkSpeed` and `OrignalAcceleration` otherwise, that is
`WalkSpeed * m` and `OrignalAcceleration * m` with the same `m` in
`{1, DashSpeedMultiplier}`; two states that agree on `Dashing`, `DashTime`,
`WalkSpeed`, `OrignalAcceleration` and `DashSpeedMultiplier` get the same movement
component, whatever it held before and whatever the elapsed times; and after any
non-empty sequence of ticks the movement component is still the original baselines
times 1 or times `DashSpeedMultiplier`. -/
theorem C7_tick_overwrites_from_baselines :
    (∀ (s : APaparazziCharacter) (dt : Float32),
      (s.Tick dt).Dashing = s.Dashing ∧ (s.Tick dt).WalkSpeed = s.WalkSpeed ∧
      (s.Tick dt).OrignalAcceleration = s.OrignalAcceleration ∧
      (s.Tick dt).DashSpeedMultiplier = s.DashSpeedMultiplier) ∧
    (∀ (s : APaparazziCharacter) (dt : Float32),
      (s.Tick dt).MovementComponent =
        if s.Dashing = true ∧ 0 < s.DashTime then
          ⟨s.WalkSpeed * s.DashSpeedMultiplier, s.OrignalAcceleration * s.DashSpeedMultiplier⟩
        else ⟨s.WalkSpeed, s.OrignalAcceleration⟩) ∧
    (∀ (s : APaparazziCharacter) (dt : Float32),
      ∃ m : Float32, (m = 1 ∨ m = s.DashSpeedMultiplier) ∧
        (s.Tick dt).MovementComponent.MaxWalkSpeed = s.WalkSpeed * m ∧
        (s.Tick dt).MovementComponent.MaxAcceleration = s.OrignalAcceleration * m) ∧
    (∀ (s t : APaparazziCharacter) (dt du : Float32),
      s.Dashing = t.Dashing → s.DashTime = t.DashTime → s.WalkSpeed = t.WalkSpeed →
      s.OrignalAcceleration = t.OrignalAcceleration →
      s.DashSpeedMultiplier = t.DashSpeedMultiplier →
      (s.Tick dt).MovementComponent = (t.Tick du).MovementComponent) ∧
    (∀ (s : APaparazziCharacter) (dts : List Float32), dts ≠ [] →
      (ticks s dts).WalkSpeed = s.WalkSpeed ∧
      (ticks s dts).OrignalAcceleration = s.OrignalAcceleration ∧
      (ticks s dts).DashSpeedMultiplier = s.DashSpeedMultiplier ∧
      ∃ m : Float32, (m = 1 ∨ m = s.DashSpeedMultiplier) ∧
        (ticks s dts).MovementComponent.MaxWalkSpeed = s.WalkSpeed * m ∧
        (ticks s dts).MovementComponent.MaxAcceleration = s.OrignalAcceleration * m) := by
  refine ⟨?_, ?_, ?_, ?_, ?_⟩
  · intro s dt
    obtain ⟨g1, g2, g3, g4, _⟩ := Tick_frame s dt
    exact ⟨g1, g2, g3, g4⟩
  · intro s dt
    exact Tick_movement s dt
  · intro s dt
    obtain ⟨m, hm, e⟩ := Tick_movement_mul s dt
    exact ⟨m, hm, by rw [e], by rw [e]⟩
  · intro s t dt du h1 h2 h3 h4 h5
    rw [Tick_movement, Tick_movement, h1, h2, h3, h4, h5]
  · intro s dts hne
    obtain ⟨_, g2, g3, g4⟩ := ticks_frame dts s
    obtain ⟨m, hm, e⟩ := ticks_movement dts s hne
    refine ⟨g2, g3, g4, m, hm, ?_, ?_⟩
    · rw [e]
    · rw [e]

/-- C7 at a concrete run: dash held from full stamina, three ticks of 1 second; the
speed is 900 = 600 * 1.5 after the three ticks (not 600 * 1.5 * 1.5 * 1.5) and the
baseline is still 600; with the baseline `0.1f` the stored speed is the rounded
product 5033165 / 2^25 after one tick and after three. -/
theorem C7_tick_overwrites_from_baselines_witness :
    (ticks (dashingAt 5) [1, 1, 1]).MovementComponent.MaxWalkSpeed = 900 ∧
    (ticks (dashingAt 5) [1, 1, 1]).WalkSpeed = 600 ∧
    ((dashingAt 5).Tick 1).MovementComponent =
      (({ dashingAt 5 with MovementComponent := ⟨1, 2⟩ }).Tick 3).MovementComponent ∧
    (({ dashingAt 5 with WalkSpeed := Float32.lit 1 10 }).Tick 1).MovementComponent.MaxWalkSpeed
      = Float32.lit 5033165 (2 ^ 25) ∧
    (ticks { dashingAt 5 with WalkSpeed := Float32.lit 1 10 }
      [1, 1, 1]).MovementComponent.MaxWalkSpeed = Float32.lit 5033165 (2 ^ 25) := by
  have h := C7_tick_overwrites_from_baselines.2.2.2.2 (dashingAt 5) [1, 1, 1] (by decide)
  have e := C7_tick_overwrites_from_baselines.2.2.2.1 (dashingAt 5)
    { dashingAt 5 with MovementComponent := ⟨1, 2⟩ } 1 3 rfl rfl rfl rfl rfl
  exact ⟨by decide, h.1, e, by decide, by decide⟩

/-- C8: the movement-input guard.  For every input `Value`, `MoveForward` and
`MoveRight` change nothing (so forward no movement input) when the controller is
null or `Value = 0`.  When the controller is not null and `Value != 0`, each appends
exactly one `AddMovementInput(direction, Value)` call with the unmodified `Value`;
the direction is the unit axis of the rotation `(0, Yaw, 0)` built from the control
rotation's yaw alone, the X axis for `MoveForward` and the Y axis for `MoveRight`;
nothing else changes.  In every case `Dashing` and `DashTime` are unchanged.  Both
methods are total functions: no error is raised. -/
theorem C8_movement_input_guard (unitAxis : FRotator → EAxis → FVector)
    (s : APaparazziCharacter) (Value : Float32) :
    (s.Controller = none ∨ Value = 0 →
      s.MoveForward unitAxis Value = s ∧ s.MoveRight unitAxis Value = s) ∧
    (∀ c : AController, s.Controller = some c → Value ≠ 0 →
      s.MoveForward unitAxis Value =
        { s with MovementInput := s.MovementInput ++
            [(unitAxis ⟨0, c.ControlRotation.Yaw, 0⟩ EAxis.X, Value)] } ∧
      s.MoveRight unitAxis Value =
        { s with MovementInput := s.MovementInput ++
            [(unitAxis ⟨0, c.ControlRotation.Yaw, 0⟩ EAxis.Y, Value)] }) ∧
    ((s.MoveForward unitAxis Value).Dashing = s.Dashing ∧
      (s.MoveForward unitAxis Value).DashTime = s.DashTime ∧
      (s.MoveRight unitAxis Value).Dashing = s.Dashing ∧
      (s.MoveRight unitAxis Value).DashTime = s.DashTime) :=
  ⟨fun h => ⟨MoveForward_null unitAxis s Value h, MoveRight_null unitAxis s Value h⟩,
    fun c hc hv =>
      ⟨MoveForward_some unitAxis s Value c hc hv, MoveRight_some unitAxis s Value c hc hv⟩,
    Move_dash_state unitAxis s Value⟩

/-- C8 at concrete inputs: with control rotation (30, 90, 15) and `Value = 2` the
forward call logs direction (0, 1, 0) and the right call logs direction (-1, 0, 0),
the exact axes for yaw 90 with zero pitch and roll, both with magnitude 2; with
`Value = 0`, or with no controller, nothing is logged. -/
theorem C8_movement_input_guard_witness :
    (steered.MoveForward quarterTurnAxis 2).MovementInput = [(⟨0, 1, 0⟩, 2)] ∧
    (steered.MoveRight quarterTurnAxis 2).MovementInput =
      [(⟨Float32.lit (-1) 1, 0, 0⟩, 2)] ∧
    steered.MoveForward quarterTurnAxis 0 = steered ∧
    steered.MoveRight quarterTurnAxis 0 = steered ∧
    (construct blank).MoveForward quarterTurnAxis 2 = construct blank ∧
    (construct blank).MoveRight quarterTurnAxis 2 = construct blank := by
  have h := (C8_movement_input_guard quarterTurnAxis steered 2).2.1 ⟨⟨30, 90, 15⟩⟩ rfl
    (by decide)
  have h0 := (C8_movement_input_guard quarterTurnAxis steered 0).1 (Or.inr rfl)
  have hn := (C8_movement_input_guard quarterTurnAxis (construct blank) 2).1 (Or.inl rfl)
  refine ⟨?_, ?_, h0.1, h0.2, hn.1, hn.2⟩
  · rw [h.1]; decide
  · rw [h.2]; decide

/-- C9, as amended: tick-splitting independence of the stamina when no rounding
occurs.  For every state satisfying the stamina range invariant and all
`dt1, dt2 >= 0` such that the binary32 sum `dt1 + dt2` and the three stamina updates
of the two schedules (`DashTime - dt1`, `(DashTime - dt1) - dt2`,
`DashTime - (dt1 + dt2)` while `Dashing` is set, the same with `+` while it is clear)
are exact, the `DashTime` after `Tick(dt1)` followed by `Tick(dt2)` equals the
`DashTime` after the single `Tick(dt1 + dt2)`. -/
theorem C9_tick_splitting (s : APaparazziCharacter) (dt1 dt2 : Float32)
    (_hinv : StaminaInv s) (_h1 : 0 ≤ dt1) (h2 : 0 ≤ dt2) (hex : SplitExact s dt1 dt2) :
    ((s.Tick dt1).Tick dt2).DashTime = (s.Tick (dt1 + dt2)).DashTime := by
  obtain ⟨hs, hrest⟩ := hex
  obtain ⟨j1, hj1, j2, hj2, rfl, rfl⟩ := ExactAdd_finite hs
  have hj2nn := finite_nonneg h2
  cases hD : s.Dashing
  · rw [hD] at hrest
    simp only [Bool.false_eq_true, if_false] at hrest
    obtain ⟨ha, hb, hc⟩ := hrest
    obtain ⟨k, hk, _, _, hDT, _⟩ := ExactAdd_finite ha
    exact split_recovering s k j1 j2 hk hj1 hj2 hD hDT hj2nn hs ha hb hc
  · rw [hD] at hrest
    simp only [if_true] at hrest
    obtain ⟨ha, hb, hc⟩ := hrest
    obtain ⟨k, hk, _, _, hDT, _⟩ := ExactSub_finite ha
    exact split_dashing s k j1 j2 hk hj1 hj2 hD hDT hj2nn hs ha hb hc

/-- C9 at concrete inputs where every operation is exact: dashing from stamina 2,
ticks of 1.5 and 1 end at 0 as does one tick of 2.5; recovering from stamina 4, ticks
of 0.5 and 1 end at 5 as does one tick of 1.5. -/
theorem C9_tick_splitting_witness :
    SplitExact (dashingAt 2) (Float32.lit 3 2) 1 ∧
    (((dashingAt 2).Tick (Float32.lit 3 2)).Tick 1).DashTime =
      ((dashingAt 2).Tick (Float32.lit 3 2 + 1)).DashTime ∧
    ((dashingAt 2).Tick (Float32.lit 3 2 + 1)).DashTime = 0 ∧
    SplitExact (recoveringAt 4) (Float32.lit 1 2) 1 ∧
    (((recoveringAt 4).Tick (Float32.lit 1 2)).Tick 1).DashTime =
      ((recoveringAt 4).Tick (Float32.lit 1 2 + 1)).DashTime ∧
    ((recoveringAt 4).Tick (Float32.lit 1 2 + 1)).DashTime = 5 :=
  ⟨by decide,
    C9_tick_splitting (dashingAt 2) (Float32.lit 3 2) 1 (by decide) (by decide) (by decide)
      (by decide),
    by decide, by decide,
    C9_tick_splitting (recoveringAt 4) (Float32.lit 1 2) 1 (by decide) (by decide)
      (by decide) (by decide),
    by decide⟩

/-- C9 as stated fails on the binary32 code: recovering from stamina 3, two ticks of
`0.1f` leave a stamina different from the one left by a single tick of
`0.1f + 0.1f` (which is `0.2f`); dashing from stamina 1, likewise.  Both states satisfy
the stamina range invariant and both elapsed times are non-negative. -/
theorem C9_tick_splitting_counterexample :
    StaminaInv (recoveringAt 3) ∧ StaminaInv (dashingAt 1) ∧
    (0 : Float32) ≤ Float32.lit 1 10 ∧
    Float32.lit 1 10 + Float32.lit 1 10 = Float32.lit 2 10 ∧
    (((recoveringAt 3).Tick (Float32.lit 1 10)).Tick (Float32.lit 1 10)).DashTime ≠
      ((recoveringAt 3).Tick (Float32.lit 1 10 + Float32.lit 1 10)).DashTime ∧
    (((dashingAt 1).Tick (Float32.lit 1 10)).Tick (Float32.lit 1 10)).DashTime ≠
      ((dashingAt 1).Tick (Float32.lit 1 10 + Float32.lit 1 10)).DashTime ∧
    (((recoveringAt 3).Tick (Float32.lit 1 10)).Tick (Float32.lit 1 10)).DashTime =
      Float32.lit 13421772 (2 ^ 22) ∧
    ((recoveringAt 3).Tick (Float32.lit 1 10 + Float32.lit 1 10)).DashTime =
      Float32.lit 13421773 (2 ^ 22) := by
  decide

end Paparazzi
